import Mathlib

/-!
CarND-MPC-Project: the control loop of `src/main.cpp`

A shallow embedding of the pre-processing pipeline of `main.cpp`
(frame transform, polynomial fit, error estimation) and the properties of it
that the specification states.

Conventions of the embedding.

* `double` is modelled by a linearly ordered field `α`; the definitions are
  polymorphic (and run on `ℚ`), the theorems about trigonometry are stated at
  `α = ℝ` with the real functions `Real.cos`, `Real.sin`, `Real.arctan` and
  `atan2 y x = Complex.arg (x + y i)`.
* The functions of `<math.h>` that a routine calls are passed to it as
  arguments, in the order `cos sin atan atan2`.
* The values carry no sign of zero. The one call whose result the sign of a
  zero decides, `atan2f(y, x)` after `y *= -1`, is treated in
  `disambiguateHeading`.
* `std::vector<double>` and `Eigen::VectorXd` are `List α`; an
  `Eigen::MatrixXd` is the list of its rows.
* A failed `assert` and an unchecked `operator[]` outside the container end a
  call with a `Fault`; calls that can end so return `Except Fault _`.
* `Eigen::HouseholderQR::solve` is not part of the repository; `polyfit`
  receives it as the argument `solve`.
* `std::string` is `List Char`. The message handler returns the list of its
  effects on its collaborators (the call of `MPC::Solve`, the delay, the
  frames handed to `ws.send`); `MPC::Solve` and the JSON decoding are not part
  of the repository and are the arguments `mpcSolve` and `decode`.
-/

namespace MPC

/-! ## Data model -/

/-- Ways in which a call ends without returning a value. -/
inductive Fault where
  /-- A failed `assert`: the process is aborted. -/
  | assertionFailed
  /-- An unchecked `operator[]` outside the container (undefined behaviour). -/
  | outOfBounds
deriving DecidableEq, Repr

/-- Whether the fault is the termination of the whole process by `abort()`
after a failed `assert` (assertions are enabled, `NDEBUG` is not defined).
Neither fault is a value handed to the caller. -/
def Fault.abortsProcess : Fault → Bool
  | Fault.assertionFailed => true
  | Fault.outOfBounds => false

/-- The fields of a `telemetry` event that the control loop reads
(`main.cpp`, lines 124-130). -/
structure Telemetry (α : Type) where
  ptsx : List α
  ptsy : List α
  x : α
  y : α
  psi : α
  speed : α

/-- The values the control loop has computed when it calls `mpc.Solve`
(`main.cpp`, line 194): the waypoints in the car frame, the fitted
coefficients and the six entries of `state`. -/
structure CycleState (α : Type) where
  ptsx : List α
  ptsy : List α
  coeffs : List α
  px : α
  py : α
  psi : α
  v : α
  cte : α
  epsi : α

section Code

variable {α : Type} [LinearOrderedField α]

/-! ## Embedding of the code -/

/-- Unchecked element access `v[i]` of a `std::vector`. -/
def index (v : List α) (i : Nat) : Except Fault α :=
  match v[i]? with
  | some a => Except.ok a
  | none => Except.error Fault.outOfBounds

/-- The function `polyeval` (`main.cpp`, lines 36-42). -/
def polyeval (coeffs : List α) (x : α) : α :=
  (List.range coeffs.length).foldl (fun result i => result + coeffs.getD i 0 * x ^ i) 0

/-- Entry `A(j, i)` of the matrix that `polyfit` fills (`main.cpp`, lines
53-61) in the row of the abscissa `x = xvals(j)`: `A(j, 0) = 1.0` and
`A(j, i + 1) = A(j, i) * xvals(j)`. -/
def designEntry (x : α) : Nat → α
  | 0 => 1
  | i + 1 => designEntry x i * x

/-- The matrix `A` of `polyfit` (`main.cpp`, lines 51-61), with `xvals.size()`
rows and `order + 1` columns. -/
def designMatrix (xvals : List α) (order : Nat) : List (List α) :=
  xvals.map (fun x => (List.range (order + 1)).map (designEntry x))

/-- The function `polyfit(Eigen::VectorXd, Eigen::VectorXd, int)`
(`main.cpp`, lines 47-66). `Eigen::Index` is a signed 64-bit integer, so
`xvals.size() - 1` is `-1` for the empty vector. -/
def polyfitEigen (solve : List (List α) → List α → List α)
    (xvals yvals : List α) (order : Int) : Except Fault (List α) :=
  if xvals.length ≠ yvals.length then Except.error Fault.assertionFailed
  else if ¬ (order ≥ 1 ∧ order ≤ (xvals.length : Int) - 1) then
    Except.error Fault.assertionFailed
  else
    let A := designMatrix xvals order.toNat
    Except.ok (solve A yvals)

/-- The function `polyfit(std::vector<double>, std::vector<double>, int)`
(`main.cpp`, lines 68-80): after the assertion the two vectors are copied
element by element and handed to the `Eigen` overload. -/
def polyfit (solve : List (List α) → List α → List α)
    (xvals yvals : List α) (order : Int) : Except Fault (List α) :=
  if xvals.length ≠ yvals.length then Except.error Fault.assertionFailed
  else polyfitEigen solve xvals yvals order

/-- The function `evalPolynomialGradient` (`main.cpp`, lines 82-88); the loop
runs over `i = 1, ..., coeffs.size() - 1`. -/
def evalPolynomialGradient (coeffs : List α) (x : α) : α :=
  (List.range' 1 (coeffs.length - 1)).foldl
    (fun result i => result + coeffs.getD i 0 * x ^ (i - 1)) 0

/-- One pass through the body of the loop of `mapToCarFrame` (`main.cpp`,
lines 94-99) for the index `i`; `pts` holds the current contents of `ptsx`
and `ptsy`, which the body overwrites in place. -/
def mapToCarFrameStep (cos sin : α → α) (car_state : List α)
    (pts : List α × List α) (i : Nat) : Except Fault (List α × List α) := do
  let car_theta ← index car_state 2
  let x_diff := (← index pts.1 i) - (← index car_state 0)
  let y_diff := (← index pts.2 i) - (← index car_state 1)
  let ptsx := pts.1.set i (cos car_theta * x_diff + sin car_theta * y_diff)
  let ptsy := pts.2.set i (-sin car_theta * x_diff + cos car_theta * y_diff)
  pure (ptsx, ptsy)

/-- The function `mapToCarFrame` (`main.cpp`, lines 90-101). The result is
the final contents of the two reference arguments `ptsx` and `ptsy`. -/
def mapToCarFrame (cos sin : α → α) (car_state : List α)
    (ptsx ptsy : List α) : Except Fault (List α × List α) :=
  (List.range ptsx.length).foldlM (mapToCarFrameStep cos sin car_state) (ptsx, ptsy)

/-- Conversion of an unsigned 64-bit value to `int` (32 bits, two's
complement). -/
def toInt32 (n : Nat) : Int :=
  if n % 2 ^ 32 < 2 ^ 31 then (n % 2 ^ 32 : Nat) else ((n % 2 ^ 32 : Nat) : Int) - 2 ^ 32

/-- The fit order the control loop computes from `size = ptsx.size()`
(`main.cpp`, lines 133-135). In `ptsx.size() < polyfit_order` and in both
branches of the conditional expression the operands are `size_t` (unsigned,
64 bits); the result is converted back to `int`. -/
def polyfitOrder (size : Nat) : Int :=
  let polyfit_order : Nat := 3
  toInt32 (if size < polyfit_order then (size + 2 ^ 64 - 1) % 2 ^ 64 else polyfit_order)

/-- The expression `atan2f(sin(a), cos(a))` with which the control loop
unwraps the telemetry heading (`main.cpp`, line 129) and the heading error
(line 170). -/
def unwrapAngle (cos sin : α → α) (atan2 : α → α → α) (a : α) : α :=
  atan2 (sin a) (cos a)

/-- The correction of the candidate heading (`main.cpp`, lines 158-166):
`desired_heading` is the candidate, `local_x_diff` and `local_y_diff` the
displacement of the first two waypoints in the car frame.

Sign of zero. The values of the embedding carry no sign of zero, and `atan2`
stands for `atan2f` on such values, a zero first argument being `+0.0`. The
call in line 165 is the one place where the sign of a zero decides the
result: a zero `sin(desired_heading)` is `+0.0` (the sum of
`evalPolynomialGradient` starts from `0.0` and so is never `-0.0`,
`atanf(+0.0) = +0.0` and `sin(+0.0) = +0.0`), the statement `y *= -1` turns it
into `-0.0`, and in IEEE 754 arithmetic `atan2f(-0.0, x) = -atan2f(+0.0, x)`,
which is `-pi` for `x < 0`. -/
def disambiguateHeading (cos sin : α → α) (atan2 : α → α → α)
    (desired_heading local_x_diff local_y_diff : α) : α :=
  if local_x_diff * cos desired_heading + local_y_diff * sin desired_heading < 0 then
    let x := cos desired_heading
    let y := sin desired_heading
    let x := x * -1
    let y := y * -1
    if y = 0 then -atan2 0 x else atan2 y x
  else desired_heading

/-- The telemetry branch of the message handler up to the call of
`mpc.Solve` (`main.cpp`, lines 124-174). -/
def telemetryState (cos sin atan : α → α) (atan2 : α → α → α)
    (solve : List (List α) → List α → List α) (t : Telemetry α) :
    Except Fault (CycleState α) := do
  let psi := unwrapAngle cos sin atan2 t.psi
  let v := t.speed
  let polyfit_order := polyfitOrder t.ptsx.length
  let (ptsx, ptsy) ← mapToCarFrame cos sin [t.x, t.y, psi] t.ptsx t.ptsy
  let px : α := 0
  let py : α := 0
  let psi : α := 0
  let coeffs ← polyfit solve ptsx ptsy polyfit_order
  let y_ref := polyeval coeffs px
  let cte := py - y_ref
  let desired_heading := atan (evalPolynomialGradient coeffs px)
  let local_x_diff := (← index ptsx 1) - (← index ptsx 0)
  let local_y_diff := (← index ptsy 1) - (← index ptsy 0)
  let desired_heading :=
    disambiguateHeading cos sin atan2 desired_heading local_x_diff local_y_diff
  let psi_ref := desired_heading
  let epsi := psi - psi_ref
  let epsi := unwrapAngle cos sin atan2 epsi
  pure { ptsx := ptsx, ptsy := ptsy, coeffs := coeffs,
         px := px, py := py, psi := psi, v := v, cte := cte, epsi := epsi }

end Code

section Contract
variable {α : Type} [LinearOrderedField α]

/-- Modelled from the spec: the squared residual `|A c - y|^2` of the linear
system that `polyfit` hands to `Eigen::HouseholderQR::solve` (the `Eigen`
library is not part of the repository), the quantity that the fit
minimises. -/
def sqResidual (A : List (List α)) (c y : List α) : α :=
  ∑ j in Finset.range A.length,
    ((∑ i in Finset.range c.length, (A.getD j []).getD i 0 * c.getD i 0) - y.getD j 0) ^ 2

/-- Modelled from the spec: the contract of `Eigen::HouseholderQR::solve`
(the `Eigen` library is not part of the repository), "return coefficients
minimizing squared residual": `c` has one entry for each column of `A` and no
vector of that size has a smaller squared residual. -/
def IsLeastSquares (A : List (List α)) (y c : List α) : Prop :=
  c.length = (A.headD []).length ∧
    ∀ c' : List α, c'.length = c.length → sqResidual A c y ≤ sqResidual A c' y

end Contract

/-! ## Embedding of the message handler -/

/-- The fields that the control loop stores in `msgJson` (`main.cpp`, lines
233-267). -/
structure SteerJson (α : Type) where
  steering_angle : α
  throttle : α
  mpc_x : List α
  mpc_y : List α
  next_x : List α
  next_y : List α

/-- A text frame handed to `ws.send`. -/
inductive Frame (α : Type) where
  /-- A frame whose text is a literal of the source. -/
  | text (msg : List Char)
  /-- The frame `"42[\"steer\"," + msgJson.dump() + "]"` (`main.cpp`, line 270). -/
  | steer (msgJson : SteerJson α)

/-- The calls of the message handler that act on its collaborators, in the
order in which they happen. The lines written to `std::cout` are not
recorded. -/
inductive Effect (α : Type) where
  /-- The call `mpc.Solve(state, coeffs)` (`main.cpp`, line 194). -/
  | solve (state coeffs : List α)
  /-- The call `this_thread::sleep_for(chrono::milliseconds(ms))` (line 281). -/
  | sleep (ms : Nat)
  /-- The call `ws.send` with the given frame (lines 282 and 287). -/
  | send (frame : Frame α)

/-- Modelled from the spec: the outcome of `MPC::Solve` (`MPC.h` and `MPC.cpp`
are not under `src/`), the flattened horizon it returns and whether the NLP
solver converged. The control loop receives the vector only. -/
structure SolveOutcome (α : Type) where
  vars : List α
  converged : Bool

section Handler

variable {α : Type} [LinearOrderedField α]

/-- The member function `std::string::find`: the lowest position at which
`pat` occurs in `s`, `none` for `string::npos`. -/
def find (s pat : List Char) : Option Nat :=
  (List.range (s.length + 1)).find? (fun i => (s.drop i).take pat.length == pat)

/-- The member function `std::string::find_first_of`: the lowest position of a
character of `s` that occurs in `chars`, `none` for `string::npos`. -/
def find_first_of (s chars : List Char) : Option Nat :=
  (List.range s.length).find? (fun i => (s.drop i).head?.any (fun c => chars.contains c))

/-- The member function `std::string::rfind`: the highest position at which
`pat` occurs in `s`, `none` for `string::npos`. -/
def rfind (s pat : List Char) : Option Nat :=
  (List.range (s.length + 1)).reverse.find? (fun i => (s.drop i).take pat.length == pat)

/-- The member function `std::string::substr(pos, len)` for `pos <= s.size()`:
the characters from `pos` on, at most `len` of them. -/
def substr (s : List Char) (pos len : Nat) : List Char :=
  (s.drop pos).take len

/-- The function `hasData` (`main.cpp`, lines 23-33). The length
`b2 - b1 + 2` is computed in `size_t` (unsigned, 64 bits). -/
def hasData (s : List Char) : List Char :=
  let found_null := find s ['n', 'u', 'l', 'l']
  let b1 := find_first_of s ['[']
  let b2 := rfind s ['}', ']']
  if found_null ≠ none then []
  else
    match b1, b2 with
    | some b1, some b2 => substr s b1 ((b2 + 2 ^ 64 - b1 + 2) % 2 ^ 64)
    | _, _ => []

/-- The function `deg2rad` (`main.cpp`, line 17); `pi` is the value of `pi()`. -/
def deg2rad (pi x : α) : α := x * pi / 180

/-- The constant `N` of the control loop (`main.cpp`, line 196). -/
def N : Nat := 10

/-- The constant `x_start` (`main.cpp`, line 197). -/
def x_start : Nat := 0

/-- The constant `y_start` (`main.cpp`, line 198). -/
def y_start : Nat := x_start + N

/-- The constant `psi_start` (`main.cpp`, line 199). -/
def psi_start : Nat := y_start + N

/-- The constant `v_start` (`main.cpp`, line 200). -/
def v_start : Nat := psi_start + N

/-- The constant `cte_start` (`main.cpp`, line 201). -/
def cte_start : Nat := v_start + N

/-- The constant `epsi_start` (`main.cpp`, line 202). -/
def epsi_start : Nat := cte_start + N

/-- The constant `delta_start` (`main.cpp`, line 203). -/
def delta_start : Nat := epsi_start + N

/-- The constant `a_start` (`main.cpp`, line 204). -/
def a_start : Nat := delta_start + N - 1

/-- One pass of the loop that collects the predicted trajectory (`main.cpp`,
lines 242-245); `vals` holds `mpc_x_vals` and `mpc_y_vals`. -/
def mpcValsStep (vars : List α) (vals : List α × List α) (i : Nat) :
    Except Fault (List α × List α) := do
  let xv ← index vars (x_start + i)
  let yv ← index vars (y_start + i)
  pure (vals.1 ++ [xv], vals.2 ++ [yv])

/-- The control loop from the result `vars` of `mpc.Solve` to the contents of
`msgJson` (`main.cpp`, lines 196-267). Every entry of `vars` is read with an
unchecked `operator[]`; an entry that is read twice is bound once. -/
def steerJson (pi : α) (vars ptsx ptsy : List α) : Except Fault (SteerJson α) := do
  let _x ← index vars x_start
  let _y ← index vars y_start
  let _psi ← index vars psi_start
  let _v ← index vars v_start
  let _cte ← index vars cte_start
  let _epsi ← index vars epsi_start
  let steer_value ← index vars delta_start
  let throttle_value ← index vars a_start
  let steer_value := steer_value / -deg2rad pi 25
  let (mpc_x_vals, mpc_y_vals) ← (List.range N).foldlM (mpcValsStep vars) ([], [])
  let next_x_vals := ptsx
  let next_y_vals := ptsy
  pure { steering_angle := steer_value, throttle := throttle_value,
         mpc_x := mpc_x_vals, mpc_y := mpc_y_vals,
         next_x := next_x_vals, next_y := next_y_vals }

/-- The telemetry branch of the message handler (`main.cpp`, lines 123-283):
the state is computed, the optimizer is called, the command is delayed by
100 ms and sent. -/
def telemetryReply (cos sin atan : α → α) (atan2 : α → α → α) (pi : α)
    (solve : List (List α) → List α → List α)
    (mpcSolve : List α → List α → SolveOutcome α) (t : Telemetry α) :
    Except Fault (List (Effect α)) := do
  let st ← telemetryState cos sin atan atan2 solve t
  let state := [st.px, st.py, st.psi, st.v, st.cte, st.epsi]
  let vars := (mpcSolve state st.coeffs).vars
  let msgJson ← steerJson pi vars st.ptsx st.ptsy
  pure [Effect.solve state st.coeffs, Effect.sleep 100, Effect.send (Frame.steer msgJson)]

/-- The text `42["manual",{}]` of the acknowledgment of manual driving
(`main.cpp`, line 286). -/
def manualMsg : List Char := "42[\"manual\",\x7b\x7d]".toList

/-- The handler that `main` registers with `h.onMessage` (`main.cpp`, lines
110-290) for the frame text `sdata`. The JSON library is not part of the
repository: `decode` stands for `json::parse` and the reads of `j[0]` and of
the fields of `j[1]`, it yields the event name and the telemetry fields or
ends the call. -/
def onMessage (cos sin atan : α → α) (atan2 : α → α → α) (pi : α)
    (solve : List (List α) → List α → List α)
    (mpcSolve : List α → List α → SolveOutcome α)
    (decode : List Char → Except Fault (List Char × Telemetry α))
    (sdata : List Char) : Except Fault (List (Effect α)) :=
  if sdata.length > 2 ∧ sdata[0]? = some '4' ∧ sdata[1]? = some '2' then
    let s := hasData sdata
    if s ≠ [] then do
      let (event, t) ← decode s
      if event = "telemetry".toList then
        telemetryReply cos sin atan atan2 pi solve mpcSolve t
      else pure []
    else
      let msg := manualMsg
      pure [Effect.send (Frame.text msg)]
  else pure []

end Handler

section Contract2

variable {α : Type} [LinearOrderedField α]

/-- Modelled from the spec: the sum of the squared residuals of the
polynomial with coefficients `c` at the points `(xvals[j], yvals[j])`,
evaluated with `polyeval`. -/
def fitResidual (xvals yvals c : List α) : α :=
  ∑ j in Finset.range xvals.length, (polyeval c (xvals.getD j 0) - yvals.getD j 0) ^ 2

end Contract2

/-- Modelled from the spec: the blocks of the flattened horizon that
`MPC::Solve` returns (`MPC.cpp` is not under `src/`), each with the offset at
which the control loop reads it and its length: `N` values for each of `x`,
`y`, `psi`, `v`, `cte`, `epsi`, then `N - 1` values for each of `delta` and
`a`. -/
def resultBlocks : List (Nat × Nat) :=
  [(x_start, N), (y_start, N), (psi_start, N), (v_start, N), (cte_start, N),
   (epsi_start, N), (delta_start, N - 1), (a_start, N - 1)]

/-! ## Lists and element access -/

section Lists

variable {α : Type}

theorem index_eq_ok {v : List α} {i : Nat} (h : i < v.length) :
    index v i = Except.ok v[i] := by
  simp [index, List.getElem?_eq_getElem h]

theorem lt_length_of_getElem? {l : List α} {j : Nat} {a : α} (h : l[j]? = some a) :
    j < l.length := by
  by_contra hn
  rw [List.getElem?_eq_none (by omega)] at h
  exact Option.noConfusion h

/-- Overwriting entry `k` of a list whose first `k` entries come from `T` and
whose other entries come from `P` with `T[k]` moves the border by one. -/
theorem set_take_append_drop (T P : List α) (k : Nat) (hT : k < T.length)
    (hlen : T.length = P.length) :
    (T.take k ++ P.drop k).set k T[k] = T.take (k + 1) ++ P.drop (k + 1) := by
  apply List.ext_getElem?
  intro j
  simp only [List.getElem?_set, List.getElem?_append, List.getElem?_take, List.getElem?_drop,
    List.length_take, List.length_append, List.length_drop]
  rcases Nat.lt_trichotomy j k with h | h | h
  · have h1 : j < min k T.length := by omega
    have h2 : j < min (k+1) T.length := by omega
    have h3 : j < k + 1 := by omega
    have h4 : k ≠ j := by omega
    simp [h1, h2, h3, h4, h]
  · subst h
    have h2 : j < min (j+1) T.length := by omega
    have h5 : j < min j T.length + (P.length - j) := by omega
    simp [h2, h5, List.getElem?_eq_getElem hT]
  · have h1 : ¬ j < min k T.length := by omega
    have h2 : ¬ j < min (k+1) T.length := by omega
    have h3 : ¬ j < k + 1 := by omega
    have h4 : ¬ j < k := by omega
    have h5 : k ≠ j := by omega
    have e1 : min k T.length = k := by omega
    have e2 : min (k+1) T.length = k + 1 := by omega
    simp [h1, h2, h3, h4, h5, e1, e2]
    congr 1; omega

theorem getElem_take_append_drop (T P : List α) (k : Nat) (hP : k < P.length)
    (hlen : T.length = P.length) (h : k < (T.take k ++ P.drop k).length) :
    (T.take k ++ P.drop k)[k] = P[k] := by
  rw [List.getElem_append_right (by simp)]
  simp [List.length_take, hlen, Nat.min_eq_left (Nat.le_of_lt hP)]

end Lists

section Generic

variable {α : Type} [LinearOrderedField α]

theorem index_eq_ok_getD {v : List α} {i : Nat} (h : i < v.length) :
    index v i = Except.ok (v.getD i 0) := by
  simp [index, List.getElem?_eq_getElem h, List.getD_eq_getElem?_getD]

theorem getD_of_getElem? {l : List α} {j : Nat} {a : α} (h : l[j]? = some a) :
    l.getD j 0 = a := by
  simp [List.getD_eq_getElem?_getD, h]

/-! ## The frame transform -/

/-- One pass of the loop of `mapToCarFrame` at an index inside both lists. -/
theorem mapToCarFrameStep_eq (cos sin : α → α) (x y psi : α) (cx cy : List α) (k : Nat)
    (hx : k < cx.length) (hy : k < cy.length) :
    mapToCarFrameStep cos sin [x, y, psi] (cx, cy) k =
      Except.ok (cx.set k (cos psi * (cx[k] - x) + sin psi * (cy[k] - y)),
                 cy.set k (-sin psi * (cx[k] - x) + cos psi * (cy[k] - y))) := by
  have h0 : index [x, y, psi] 0 = Except.ok x := rfl
  have h1 : index [x, y, psi] 1 = Except.ok y := rfl
  have h2 : index [x, y, psi] 2 = Except.ok psi := rfl
  simp only [mapToCarFrameStep, h0, h1, h2, index_eq_ok hx, index_eq_ok hy, bind, Except.bind,
    pure, Except.pure]

/-- The loop of `mapToCarFrame` after `k` passes: the first `k` points are
transformed, the others still hold the global coordinates. -/
theorem mapToCarFrame_loop (cos sin : α → α) (x y psi : α) (ptsx ptsy : List α)
    (hlen : ptsx.length = ptsy.length) (k : Nat) (hk : k ≤ ptsx.length) :
    (List.range k).foldlM (mapToCarFrameStep cos sin [x, y, psi]) (ptsx, ptsy) =
      Except.ok
        ((List.zipWith (fun px py => cos psi * (px - x) + sin psi * (py - y)) ptsx ptsy).take k
            ++ ptsx.drop k,
         (List.zipWith (fun px py => -sin psi * (px - x) + cos psi * (py - y)) ptsx ptsy).take k
            ++ ptsy.drop k) := by
  induction k with
  | zero => simp [pure, Except.pure]
  | succ k ih =>
    have hkx : k < ptsx.length := by omega
    have hky : k < ptsy.length := by omega
    rw [List.range_succ, List.foldlM_append, ih (by omega)]
    simp only [List.foldlM_cons, List.foldlM_nil, bind, Except.bind]
    rw [mapToCarFrameStep_eq cos sin x y psi _ _ k (by simp; omega) (by simp; omega)]
    simp only [pure, Except.pure]
    rw [getElem_take_append_drop _ ptsx k hkx (by simp; omega),
      getElem_take_append_drop _ ptsy k hky (by simp; omega)]
    congr 2
    · rw [← set_take_append_drop _ ptsx k (by simp; omega) (by simp; omega)]
      simp
    · rw [← set_take_append_drop _ ptsy k (by simp; omega) (by simp; omega)]
      simp

/-- With a pose of three entries and coordinate lists of one length,
`mapToCarFrame` returns and maps the points one by one. -/
theorem mapToCarFrame_eq (cos sin : α → α) (x y psi : α) (ptsx ptsy : List α)
    (hlen : ptsx.length = ptsy.length) :
    mapToCarFrame cos sin [x, y, psi] ptsx ptsy =
      Except.ok
        (List.zipWith (fun px py => cos psi * (px - x) + sin psi * (py - y)) ptsx ptsy,
         List.zipWith (fun px py => -sin psi * (px - x) + cos psi * (py - y)) ptsx ptsy) := by
  unfold mapToCarFrame
  rw [mapToCarFrame_loop cos sin x y psi ptsx ptsy hlen ptsx.length (le_refl _)]
  simp [List.take_of_length_le, hlen]

/-! ## Polynomial evaluation and the fit -/

theorem foldl_range_eq_sum (g : Nat → α) (n : Nat) :
    (List.range n).foldl (fun result i => result + g i) 0 = ∑ i in Finset.range n, g i := by
  induction n with
  | zero => simp
  | succ n ih => rw [List.range_succ, List.foldl_append, ih, Finset.sum_range_succ]; simp

theorem foldl_range_from_one_eq_sum (g : Nat → α) (n : Nat) :
    (List.range' 1 n).foldl (fun result i => result + g i) 0 =
      ∑ i in Finset.range n, g (i + 1) := by
  induction n with
  | zero => simp
  | succ n ih =>
    rw [List.range'_concat, List.foldl_append, ih, Finset.sum_range_succ]
    simp [Nat.add_comm]

/-- The value of `polyeval` is the sum of the terms `coeffs[i] * x ^ i`. -/
theorem polyeval_eq_sum (coeffs : List α) (x : α) :
    polyeval coeffs x = ∑ i in Finset.range coeffs.length, coeffs.getD i 0 * x ^ i :=
  foldl_range_eq_sum (fun i => coeffs.getD i 0 * x ^ i) coeffs.length

/-- The value of `evalPolynomialGradient` is the sum of the terms
`coeffs[i + 1] * x ^ i`. -/
theorem evalPolynomialGradient_eq_sum (coeffs : List α) (x : α) :
    evalPolynomialGradient coeffs x =
      ∑ i in Finset.range (coeffs.length - 1), coeffs.getD (i + 1) 0 * x ^ i := by
  unfold evalPolynomialGradient
  rw [foldl_range_from_one_eq_sum (fun i => coeffs.getD i 0 * x ^ (i - 1))]
  simp

theorem polyeval_zero (coeffs : List α) : polyeval coeffs 0 = coeffs.getD 0 0 := by
  rw [polyeval_eq_sum]
  cases coeffs with
  | nil => simp
  | cons a l =>
    rw [List.length_cons, Finset.sum_range_succ']
    simp

theorem designEntry_eq_pow (x : α) (i : Nat) : designEntry x i = x ^ i := by
  induction i with
  | zero => simp [designEntry]
  | succ i ih => rw [designEntry, ih, pow_succ]

theorem polyfitOrder_of_four_le (n : Nat) (h : 4 ≤ n) : polyfitOrder n = 3 := by
  have h3 : ¬ n < 3 := by omega
  simp only [polyfitOrder, h3, if_false]
  decide

/-- Away from three waypoints the computed order is the clamped one. -/
theorem polyfitOrder_eq_min (n : Nat) (h2 : 2 ≤ n) (h3 : n ≠ 3) :
    polyfitOrder n = min 3 ((n : Int) - 1) := by
  rcases Nat.lt_or_ge n 4 with h | h
  · have : n = 2 := by omega
    subst this
    decide
  · rw [polyfitOrder_of_four_le n h, min_eq_left (by omega)]

theorem polyfit_eq_ok (solve : List (List α) → List α → List α) (xvals yvals : List α)
    (order : Int) (hlen : xvals.length = yvals.length) (h1 : 1 ≤ order)
    (h2 : order ≤ (xvals.length : Int) - 1) :
    polyfit solve xvals yvals order =
      Except.ok (solve (designMatrix xvals order.toNat) yvals) := by
  unfold polyfit polyfitEigen
  rw [if_neg (by simpa using hlen), if_neg (by simpa using hlen),
    if_neg (by simp only [not_not]; exact ⟨h1, h2⟩)]

/-- The assertions of `polyfit` fail when there are fewer than two points or
the two vectors differ in size. -/
theorem polyfit_eq_error (solve : List (List α) → List α → List α) (xvals yvals : List α)
    (order : Int) (h : xvals.length < 2 ∨ xvals.length ≠ yvals.length) :
    polyfit solve xvals yvals order = Except.error Fault.assertionFailed := by
  unfold polyfit polyfitEigen
  by_cases h1 : xvals.length ≠ yvals.length
  · simp [h1]
  · have h2 : ¬ (order ≥ 1 ∧ order ≤ (xvals.length : Int) - 1) := by
      rintro ⟨a, b⟩
      rcases h with h | h
      · omega
      · exact h1 h
    rw [if_neg h1, if_neg h1, if_pos h2]

/-- A call of `polyfit` that returns has passed both assertions. -/
theorem polyfit_ok_inv (solve : List (List α) → List α → List α) (xvals yvals : List α)
    (order : Int) (c : List α) (h : polyfit solve xvals yvals order = Except.ok c) :
    xvals.length = yvals.length ∧ 1 ≤ order ∧ order ≤ (xvals.length : Int) - 1 ∧
      c = solve (designMatrix xvals order.toNat) yvals := by
  unfold polyfit polyfitEigen at h
  by_cases h1 : xvals.length ≠ yvals.length
  · rw [if_pos h1] at h
    exact Except.noConfusion h
  · rw [if_neg h1, if_neg h1] at h
    by_cases h2 : ¬ (order ≥ 1 ∧ order ≤ (xvals.length : Int) - 1)
    · rw [if_pos h2] at h
      exact Except.noConfusion h
    · rw [if_neg h2] at h
      rw [not_not] at h1 h2
      exact ⟨h1, h2.1, h2.2, (Except.ok.inj h).symm⟩

/-! ## The least-squares contract -/

theorem designMatrix_length (xvals : List α) (order : Nat) :
    (designMatrix xvals order).length = xvals.length := by
  simp [designMatrix]

theorem designMatrix_headD_length (xvals : List α) (order : Nat) (h : 0 < xvals.length) :
    ((designMatrix xvals order).headD []).length = order + 1 := by
  cases xvals with
  | nil => simp at h
  | cons a l => simp [designMatrix]

/-- Row `j` of `A` times `c` is the value of `polyeval` at `xvals[j]`. -/
theorem designMatrix_row_mul (xvals c : List α) (order j : Nat) (hj : j < xvals.length)
    (hc : c.length = order + 1) :
    (∑ i in Finset.range c.length, ((designMatrix xvals order).getD j []).getD i 0 * c.getD i 0) =
      polyeval c (xvals.getD j 0) := by
  rw [polyeval_eq_sum]
  apply Finset.sum_congr rfl
  intro i hi
  have hi' : i < order + 1 := by rw [← hc]; exact Finset.mem_range.mp hi
  have hrow : (designMatrix xvals order).getD j [] =
      (List.range (order + 1)).map (designEntry (xvals.getD j 0)) := by
    simp [designMatrix, List.getD_eq_getElem?_getD, List.getElem?_map,
      List.getElem?_eq_getElem hj]
  rw [hrow]
  simp [List.getD_eq_getElem?_getD, List.getElem?_map, List.getElem?_range hi',
    designEntry_eq_pow, mul_comm]

theorem sqResidual_designMatrix (xvals yvals c : List α) (order : Nat)
    (hc : c.length = order + 1) :
    sqResidual (designMatrix xvals order) c yvals =
      ∑ j in Finset.range xvals.length, (polyeval c (xvals.getD j 0) - yvals.getD j 0) ^ 2 := by
  unfold sqResidual
  rw [designMatrix_length]
  apply Finset.sum_congr rfl
  intro j hj
  rw [designMatrix_row_mul xvals c order j (Finset.mem_range.mp hj) hc]

theorem sqResidual_nonneg (A : List (List α)) (c y : List α) : 0 ≤ sqResidual A c y :=
  Finset.sum_nonneg (fun _ _ => sq_nonneg _)

/-- The polynomial with the coefficient list `c`, lowest power first. -/
theorem exists_polynomial (c : List α) :
    ∃ p : Polynomial α, p.degree < c.length ∧ (∀ i, p.coeff i = c.getD i 0) ∧
      ∀ x, p.eval x = polyeval c x := by
  refine ⟨∑ i in Finset.range c.length, Polynomial.C (c.getD i 0) * Polynomial.X ^ i, ?_, ?_, ?_⟩
  · rw [Polynomial.degree_lt_iff_coeff_zero]
    intro m hm
    rw [Polynomial.finset_sum_coeff]
    apply Finset.sum_eq_zero
    intro i hi
    have : i < c.length := Finset.mem_range.mp hi
    rw [Polynomial.coeff_C_mul_X_pow, if_neg (by omega)]
  · intro i
    rw [Polynomial.finset_sum_coeff]
    simp only [Polynomial.coeff_C_mul_X_pow]
    rw [Finset.sum_ite_eq]
    split_ifs with h
    · rfl
    · have : c.length ≤ i := by simpa using h
      simp [List.getD_eq_getElem?_getD, List.getElem?_eq_none this]
  · intro x
    rw [polyeval_eq_sum, Polynomial.eval_finset_sum]
    simp

/-- Coefficient lists of one size are determined by the values of `polyeval`
at as many distinct points as they have entries. -/
theorem coeffs_unique (c d : List α) (xs : List α) (hcd : c.length = d.length)
    (hxs : xs.Nodup) (hn : c.length ≤ xs.length)
    (h : ∀ x ∈ xs, polyeval c x = polyeval d x) : c = d := by
  obtain ⟨p, hp, hpc, hpe⟩ := exists_polynomial c
  obtain ⟨q, hq, hqc, hqe⟩ := exists_polynomial d
  have hcard : xs.toFinset.card = xs.length := List.toFinset_card_of_nodup hxs
  have hle : ((c.length : ℕ) : WithBot ℕ) ≤ (xs.toFinset.card : WithBot ℕ) := by
    rw [hcard]; exact_mod_cast hn
  have hpq : p = q := by
    apply Polynomial.eq_of_degrees_lt_of_eval_finset_eq xs.toFinset (lt_of_lt_of_le hp hle)
      (lt_of_lt_of_le (hcd ▸ hq) hle)
    intro x hx
    rw [hpe, hqe]
    exact h x (List.mem_toFinset.mp hx)
  apply List.ext_getElem hcd
  intro i h1 h2
  have := hpc i
  rw [hpq, hqc i] at this
  simpa [List.getD_eq_getElem?_getD, List.getElem?_eq_getElem h1,
    List.getElem?_eq_getElem h2] using this.symm

/-- Distinct abscissae can be interpolated by a coefficient list with one
entry for each point. -/
theorem exists_interpolating (xs ys : List α) (hxs : xs.Nodup) :
    ∃ c : List α, c.length = xs.length ∧
      ∀ j, j < xs.length → polyeval c (xs.getD j 0) = ys.getD j 0 := by
  have hinj : Set.InjOn (fun i => xs.getD i 0) (Finset.range xs.length : Set ℕ) := by
    intro i hi j hj hij
    have hi' : i < xs.length := by simpa using hi
    have hj' : j < xs.length := by simpa using hj
    simp only [List.getD_eq_getElem?_getD, List.getElem?_eq_getElem hi',
      List.getElem?_eq_getElem hj', Option.getD_some] at hij
    exact (List.Nodup.getElem_inj_iff hxs).mp hij
  set p := Lagrange.interpolate (Finset.range xs.length) (fun i => xs.getD i 0)
    (fun i => ys.getD i 0) with hp
  have hdeg : p.degree < xs.length := by
    have := Lagrange.degree_interpolate_lt (fun i => ys.getD i 0) hinj
    rwa [Finset.card_range] at this
  refine ⟨(List.range xs.length).map p.coeff, by simp, ?_⟩
  intro j hj
  have hnat : p.natDegree < xs.length := by
    by_cases h0 : p = 0
    · rw [h0]; simpa using (by omega : 0 < xs.length)
    · exact (Polynomial.natDegree_lt_iff_degree_lt h0).mpr hdeg
  have hev : p.eval (xs.getD j 0) = ys.getD j 0 :=
    Lagrange.eval_interpolate_at_node (fun i => ys.getD i 0) hinj (Finset.mem_range.mpr hj)
  rw [← hev, polyeval_eq_sum, Polynomial.eval_eq_sum_range' hnat]
  simp only [List.length_map, List.length_range]
  apply Finset.sum_congr rfl
  intro i hi
  have hi' : i < xs.length := Finset.mem_range.mp hi
  simp [List.getD_eq_getElem?_getD, List.getElem?_map, List.getElem?_range hi']

/-- A least-squares solution of an interpolation problem has no residual. -/
theorem leastSquares_interpolates (xs ys c : List α) (order : Nat)
    (hn : 0 < xs.length)
    (hex : ∃ c' : List α, c'.length = order + 1 ∧
      ∀ j, j < xs.length → polyeval c' (xs.getD j 0) = ys.getD j 0)
    (hc : IsLeastSquares (designMatrix xs order) ys c) :
    c.length = order + 1 ∧ ∀ j, j < xs.length → polyeval c (xs.getD j 0) = ys.getD j 0 := by
  obtain ⟨hlen, hmin⟩ := hc
  rw [designMatrix_headD_length xs order hn] at hlen
  obtain ⟨c', hc', hint⟩ := hex
  have h0 : sqResidual (designMatrix xs order) c' ys = 0 := by
    rw [sqResidual_designMatrix xs ys c' order hc']
    apply Finset.sum_eq_zero
    intro j hj
    rw [hint j (Finset.mem_range.mp hj)]
    simp
  have h1 : sqResidual (designMatrix xs order) c ys = 0 :=
    le_antisymm (h0 ▸ hmin c' (by rw [hc', hlen])) (sqResidual_nonneg _ _ _)
  rw [sqResidual_designMatrix xs ys c order hlen] at h1
  rw [Finset.sum_eq_zero_iff_of_nonneg (fun _ _ => sq_nonneg _)] at h1
  refine ⟨hlen, ?_⟩
  intro j hj
  have := h1 j (Finset.mem_range.mpr hj)
  have := pow_eq_zero_iff (two_ne_zero) |>.mp this
  exact sub_eq_zero.mp this

/-! ## The control cycle -/

/-- The value of a control cycle with at least four waypoints. -/
theorem telemetryState_eq (cos sin atan : α → α) (atan2 : α → α → α)
    (solve : List (List α) → List α → List α) (t : Telemetry α)
    (hlen : t.ptsx.length = t.ptsy.length) (hn : 4 ≤ t.ptsx.length)
    (ptsx ptsy coeffs : List α)
    (hx : ptsx = List.zipWith (fun px py =>
      cos (unwrapAngle cos sin atan2 t.psi) * (px - t.x) +
        sin (unwrapAngle cos sin atan2 t.psi) * (py - t.y)) t.ptsx t.ptsy)
    (hy : ptsy = List.zipWith (fun px py =>
      -sin (unwrapAngle cos sin atan2 t.psi) * (px - t.x) +
        cos (unwrapAngle cos sin atan2 t.psi) * (py - t.y)) t.ptsx t.ptsy)
    (hc : coeffs = solve (designMatrix ptsx 3) ptsy) :
    telemetryState cos sin atan atan2 solve t =
      Except.ok
        { ptsx := ptsx, ptsy := ptsy, coeffs := coeffs, px := 0, py := 0, psi := 0,
          v := t.speed, cte := 0 - polyeval coeffs 0,
          epsi := unwrapAngle cos sin atan2
            (0 - disambiguateHeading cos sin atan2 (atan (evalPolynomialGradient coeffs 0))
              (ptsx.getD 1 0 - ptsx.getD 0 0) (ptsy.getD 1 0 - ptsy.getD 0 0)) } := by
  have hlx : ptsx.length = t.ptsx.length := by rw [hx]; simp [hlen]
  have hly : ptsy.length = t.ptsx.length := by rw [hy]; simp [hlen]
  have hfit : polyfit solve ptsx ptsy (polyfitOrder t.ptsx.length) = Except.ok coeffs := by
    rw [polyfitOrder_of_four_le _ hn, hc]
    exact polyfit_eq_ok solve ptsx ptsy 3 (by omega) (by norm_num) (by omega)
  unfold telemetryState
  simp only [bind, Except.bind, pure, Except.pure]
  rw [mapToCarFrame_eq cos sin t.x t.y _ t.ptsx t.ptsy hlen, ← hx, ← hy]
  simp only [hfit, index_eq_ok_getD (show 1 < ptsx.length by omega),
    index_eq_ok_getD (show 0 < ptsx.length by omega),
    index_eq_ok_getD (show 1 < ptsy.length by omega),
    index_eq_ok_getD (show 0 < ptsy.length by omega)]

/-- The shape of the result of a control cycle that reaches the optimizer. -/
theorem telemetryState_ok_inv (cos sin atan : α → α) (atan2 : α → α → α)
    (solve : List (List α) → List α → List α) (t : Telemetry α) (st : CycleState α)
    (h : telemetryState cos sin atan atan2 solve t = Except.ok st) :
    ∃ dh : α,
      mapToCarFrame cos sin [t.x, t.y, unwrapAngle cos sin atan2 t.psi] t.ptsx t.ptsy =
        Except.ok (st.ptsx, st.ptsy) ∧
      polyfit solve st.ptsx st.ptsy (polyfitOrder t.ptsx.length) = Except.ok st.coeffs ∧
      st.px = 0 ∧ st.py = 0 ∧ st.psi = 0 ∧ st.v = t.speed ∧
      st.cte = 0 - polyeval st.coeffs 0 ∧
      st.epsi = unwrapAngle cos sin atan2 (0 - dh) := by
  unfold telemetryState at h
  simp only [bind, Except.bind, pure, Except.pure] at h
  split at h
  · exact Except.noConfusion h
  · rename_i pts hm
    obtain ⟨ptsx, ptsy⟩ := pts
    simp only at h
    split at h
    · exact Except.noConfusion h
    · rename_i coeffs hf
      split at h
      · exact Except.noConfusion h
      · split at h
        · exact Except.noConfusion h
        · split at h
          · exact Except.noConfusion h
          · split at h
            · exact Except.noConfusion h
            · have := Except.ok.inj h
              subst this
              exact ⟨_, hm, hf, rfl, rfl, rfl, rfl, rfl, rfl⟩

end Generic

/-! ## The real trigonometric functions -/

theorem mk_cos_sin (a : ℝ) :
    (⟨Real.cos a, Real.sin a⟩ : ℂ) = Complex.cos a + Complex.sin a * Complex.I := by
  apply Complex.ext
  · simp [← Complex.ofReal_cos, ← Complex.ofReal_sin]
  · simp [← Complex.ofReal_cos, ← Complex.ofReal_sin]

theorem unwrapAngle_real (a : ℝ) :
    unwrapAngle Real.cos Real.sin (fun y x => Complex.arg ⟨x, y⟩) a =
      Complex.arg (Complex.cos a + Complex.sin a * Complex.I) := by
  simp only [unwrapAngle, mk_cos_sin]

theorem unwrapAngle_mem (a : ℝ) :
    unwrapAngle Real.cos Real.sin (fun y x => Complex.arg ⟨x, y⟩) a ∈
      Set.Ioc (-Real.pi) Real.pi :=
  Complex.arg_mem_Ioc _

theorem unwrapAngle_zero :
    unwrapAngle Real.cos Real.sin (fun y x => Complex.arg ⟨x, y⟩) 0 = 0 := by
  rw [unwrapAngle_real]
  simp

theorem zipWith_car_frame_x (xs ys : List ℝ) (hlen : xs.length = ys.length) :
    List.zipWith (fun px py => Real.cos 0 * (px - 0) + Real.sin 0 * (py - 0)) xs ys = xs := by
  apply List.ext_getElem (by simp [hlen])
  intro i h1 h2
  simp

theorem zipWith_car_frame_y (xs ys : List ℝ) (hlen : xs.length = ys.length) :
    List.zipWith (fun px py => -Real.sin 0 * (px - 0) + Real.cos 0 * (py - 0)) xs ys = ys := by
  apply List.ext_getElem (by simp [hlen])
  intro i h1 h2
  simp

theorem polyeval_const (c x : ℝ) : polyeval [c, 0, 0, 0] x = c := by
  simp [polyeval_eq_sum, Finset.sum_range_succ]

/-- A control cycle on a path of constant offset, with an exact least-squares
solver. -/
theorem telemetryState_const (solve : List (List ℝ) → List ℝ → List ℝ)
    (ptsx ptsy : List ℝ) (c speed : ℝ) (hlen : ptsx.length = ptsy.length)
    (hn : 4 ≤ ptsx.length) (hdistinct : ptsx.Nodup) (hfwd : ptsx.getD 0 0 < ptsx.getD 1 0)
    (hconst : ∀ y ∈ ptsy, y = c)
    (hsolve : IsLeastSquares (designMatrix ptsx 3) ptsy (solve (designMatrix ptsx 3) ptsy)) :
    telemetryState Real.cos Real.sin Real.arctan (fun y x => Complex.arg ⟨x, y⟩) solve
        { ptsx := ptsx, ptsy := ptsy, x := 0, y := 0, psi := 0, speed := speed } =
      Except.ok { ptsx := ptsx, ptsy := ptsy, coeffs := [c, 0, 0, 0], px := 0, py := 0,
                  psi := 0, v := speed, cte := -c, epsi := 0 } := by
  have hgetD : ∀ j, j < ptsx.length → ptsy.getD j 0 = c := by
    intro j hj
    have hj' : j < ptsy.length := by omega
    rw [List.getD_eq_getElem?_getD, List.getElem?_eq_getElem hj']
    exact hconst _ (List.getElem_mem hj')
  have hex : ∃ c' : List ℝ, c'.length = 3 + 1 ∧
      ∀ j, j < ptsx.length → polyeval c' (ptsx.getD j 0) = ptsy.getD j 0 :=
    ⟨[c, 0, 0, 0], rfl, fun j hj => by rw [polyeval_const, hgetD j hj]⟩
  obtain ⟨h4, hint⟩ := leastSquares_interpolates ptsx ptsy _ 3 (by omega) hex hsolve
  have hcoeffs : solve (designMatrix ptsx 3) ptsy = [c, 0, 0, 0] := by
    apply coeffs_unique _ _ ptsx (by rw [h4]; rfl) hdistinct (by omega)
    intro x hx
    obtain ⟨j, hj, rfl⟩ := List.getElem_of_mem hx
    have := hint j hj
    rw [hgetD j hj, List.getD_eq_getElem?_getD, List.getElem?_eq_getElem hj] at this
    rw [polyeval_const]
    exact this
  have hgrad : evalPolynomialGradient ([c, 0, 0, 0] : List ℝ) 0 = 0 := by
    simp [evalPolynomialGradient_eq_sum, Finset.sum_range_succ]
  have hdis : disambiguateHeading Real.cos Real.sin (fun y x => Complex.arg ⟨x, y⟩) 0
      (ptsx.getD 1 0 - ptsx.getD 0 0) (ptsy.getD 1 0 - ptsy.getD 0 0) = 0 := by
    unfold disambiguateHeading
    rw [if_neg]
    simp only [Real.cos_zero, Real.sin_zero, mul_one, mul_zero, add_zero, not_lt]
    linarith
  rw [telemetryState_eq Real.cos Real.sin Real.arctan (fun y x => Complex.arg ⟨x, y⟩) solve
    { ptsx := ptsx, ptsy := ptsy, x := 0, y := 0, psi := 0, speed := speed } hlen hn
    ptsx ptsy [c, 0, 0, 0]
    (by simp only [unwrapAngle_zero]; exact (zipWith_car_frame_x ptsx ptsy hlen).symm)
    (by simp only [unwrapAngle_zero]; exact (zipWith_car_frame_y ptsx ptsy hlen).symm)
    hcoeffs.symm]
  simp only [polyeval_const, hgrad, Real.arctan_zero, hdis, sub_zero, unwrapAngle_zero, zero_sub]

theorem isLeastSquares_const (c : ℝ) :
    IsLeastSquares (designMatrix ([10, 20, 30, 40] : List ℝ) 3) [c, c, c, c] [c, 0, 0, 0] := by
  refine ⟨by simp [designMatrix], fun c' _ => ?_⟩
  have h0 : sqResidual (designMatrix ([10, 20, 30, 40] : List ℝ) 3) [c, 0, 0, 0] [c, c, c, c]
      = 0 := by
    rw [sqResidual_designMatrix [10, 20, 30, 40] [c, c, c, c] [c, 0, 0, 0] 3 rfl]
    simp [polyeval_const, Finset.sum_range_succ]
  rw [h0]
  exact sqResidual_nonneg _ _ _

/-- The cycle of the end-to-end scenarios of the specification, for a solver
that returns the constant polynomial on them. -/
theorem telemetryState_scenario (solve : List (List ℝ) → List ℝ → List ℝ) (c : ℝ)
    (hsolve : solve (designMatrix [10, 20, 30, 40] 3) [c, c, c, c] = [c, 0, 0, 0]) :
    telemetryState Real.cos Real.sin Real.arctan (fun y x => Complex.arg ⟨x, y⟩) solve
        { ptsx := [10, 20, 30, 40], ptsy := [c, c, c, c], x := 0, y := 0, psi := 0,
          speed := 20 } =
      Except.ok { ptsx := [10, 20, 30, 40], ptsy := [c, c, c, c], coeffs := [c, 0, 0, 0],
                  px := 0, py := 0, psi := 0, v := 20, cte := -c, epsi := 0 } := by
  apply telemetryState_const solve [10, 20, 30, 40] [c, c, c, c] c 20 rfl (by simp) (by simp)
    (by simp; norm_num) (by simp)
  rw [hsolve]
  exact isLeastSquares_const c

/-- Three waypoints: the order handed to `polyfit` is 3 and its second
assertion fails. -/
theorem telemetryState_three {α : Type} [LinearOrderedField α] (cos sin atan : α → α)
    (atan2 : α → α → α) (solve : List (List α) → List α → List α) (t : Telemetry α)
    (hx : t.ptsx.length = 3) (hy : t.ptsy.length = 3) :
    telemetryState cos sin atan atan2 solve t = Except.error Fault.assertionFailed := by
  have hfit : ∀ xs ys : List α, xs.length = 3 →
      polyfit solve xs ys (polyfitOrder t.ptsx.length) = Except.error Fault.assertionFailed := by
    intro xs ys hxs
    have h3 : polyfitOrder t.ptsx.length = 3 := by rw [hx]; decide
    unfold polyfit polyfitEigen
    by_cases h1 : xs.length ≠ ys.length
    · simp [h1]
    · rw [if_neg h1, if_neg h1, if_pos (by rw [h3, hxs]; decide)]
  unfold telemetryState
  simp only [bind, Except.bind, pure, Except.pure]
  rw [mapToCarFrame_eq cos sin t.x t.y _ t.ptsx t.ptsy (by rw [hx, hy])]
  simp only [hfit _ _ (show (List.zipWith _ t.ptsx t.ptsy).length = 3 by simp [hx, hy])]

/-! ## The message handler -/

section HandlerLemmas

variable {α : Type} [LinearOrderedField α]

theorem index_ok_iff {β : Type} {v : List β} {i : Nat} {a : β} :
    index v i = Except.ok a ↔ v[i]? = some a := by
  unfold index
  cases h : v[i]? with
  | none => simp
  | some b => simp

/-- The loop that collects the predicted trajectory, after `n` passes. -/
theorem mpcVals_loop (vars : List α) (n : Nat) (hx : x_start + n ≤ vars.length)
    (hy : y_start + n ≤ vars.length) :
    (List.range n).foldlM (mpcValsStep vars) ([], []) =
      Except.ok ((List.range n).map (fun i => vars.getD (x_start + i) 0),
                 (List.range n).map (fun i => vars.getD (y_start + i) 0)) := by
  induction n with
  | zero => simp [pure, Except.pure]
  | succ n ih =>
    rw [List.range_succ, List.foldlM_append, ih (by omega) (by omega)]
    simp only [List.foldlM_cons, List.foldlM_nil, bind, Except.bind, mpcValsStep,
      index_eq_ok_getD (show x_start + n < vars.length by omega),
      index_eq_ok_getD (show y_start + n < vars.length by omega), pure, Except.pure,
      List.map_append, List.map_cons, List.map_nil]

/-- The contents of `msgJson` for a result vector that holds every entry the
control loop reads. -/
theorem steerJson_eq (pi : α) (vars ptsx ptsy : List α) (h : a_start < vars.length) :
    steerJson pi vars ptsx ptsy =
      Except.ok { steering_angle := vars.getD delta_start 0 / -deg2rad pi 25,
                  throttle := vars.getD a_start 0,
                  mpc_x := (List.range N).map (fun i => vars.getD (x_start + i) 0),
                  mpc_y := (List.range N).map (fun i => vars.getD (y_start + i) 0),
                  next_x := ptsx, next_y := ptsy } := by
  have ha : a_start = 69 := by decide
  have hloop := mpcVals_loop vars N (by rw [ha] at h; simp only [x_start, N]; omega)
    (by rw [ha] at h; simp only [y_start, x_start, N]; omega)
  unfold steerJson
  simp only [bind, Except.bind, pure, Except.pure,
    index_eq_ok_getD (show x_start < vars.length by rw [ha] at h; simp only [x_start]; omega),
    index_eq_ok_getD (show y_start < vars.length by
      rw [ha] at h; simp only [y_start, x_start, N]; omega),
    index_eq_ok_getD (show psi_start < vars.length by
      rw [ha] at h; simp only [psi_start, y_start, x_start, N]; omega),
    index_eq_ok_getD (show v_start < vars.length by
      rw [ha] at h; simp only [v_start, psi_start, y_start, x_start, N]; omega),
    index_eq_ok_getD (show cte_start < vars.length by
      rw [ha] at h; simp only [cte_start, v_start, psi_start, y_start, x_start, N]; omega),
    index_eq_ok_getD (show epsi_start < vars.length by
      rw [ha] at h
      simp only [epsi_start, cte_start, v_start, psi_start, y_start, x_start, N]; omega),
    index_eq_ok_getD (show delta_start < vars.length by
      rw [ha] at h
      simp only [delta_start, epsi_start, cte_start, v_start, psi_start, y_start, x_start, N]
      omega),
    index_eq_ok_getD h, hloop]

/-- The command fields of a `msgJson` that the control loop has built. -/
theorem steerJson_ok_inv (pi : α) (vars ptsx ptsy : List α) (msg : SteerJson α)
    (h : steerJson pi vars ptsx ptsy = Except.ok msg) :
    ∃ delta0 a0 : α, vars[delta_start]? = some delta0 ∧ vars[a_start]? = some a0 ∧
      msg.steering_angle = delta0 / -deg2rad pi 25 ∧ msg.throttle = a0 ∧
      msg.next_x = ptsx ∧ msg.next_y = ptsy := by
  unfold steerJson at h
  simp only [bind, Except.bind, pure, Except.pure] at h
  split at h
  · exact Except.noConfusion h
  · split at h
    · exact Except.noConfusion h
    · split at h
      · exact Except.noConfusion h
      · split at h
        · exact Except.noConfusion h
        · split at h
          · exact Except.noConfusion h
          · split at h
            · exact Except.noConfusion h
            · split at h
              · exact Except.noConfusion h
              · rename_i delta0 hd
                split at h
                · exact Except.noConfusion h
                · rename_i a0 ha
                  split at h
                  · exact Except.noConfusion h
                  · have := Except.ok.inj h
                    subst this
                    exact ⟨delta0, a0, index_ok_iff.mp hd, index_ok_iff.mp ha, rfl, rfl,
                      rfl, rfl⟩

/-- The effects of a cycle whose state computation and result vector are
given. -/
theorem telemetryReply_eq (cos sin atan : α → α) (atan2 : α → α → α) (pi : α)
    (solve : List (List α) → List α → List α)
    (mpcSolve : List α → List α → SolveOutcome α) (t : Telemetry α) (st : CycleState α)
    (hst : telemetryState cos sin atan atan2 solve t = Except.ok st)
    (hvars : a_start <
      (mpcSolve [st.px, st.py, st.psi, st.v, st.cte, st.epsi] st.coeffs).vars.length) :
    telemetryReply cos sin atan atan2 pi solve mpcSolve t =
      Except.ok
        [Effect.solve [st.px, st.py, st.psi, st.v, st.cte, st.epsi] st.coeffs,
         Effect.sleep 100,
         Effect.send (Frame.steer
           { steering_angle :=
               (mpcSolve [st.px, st.py, st.psi, st.v, st.cte, st.epsi] st.coeffs).vars.getD
                 delta_start 0 / -deg2rad pi 25,
             throttle :=
               (mpcSolve [st.px, st.py, st.psi, st.v, st.cte, st.epsi] st.coeffs).vars.getD
                 a_start 0,
             mpc_x := (List.range N).map (fun i =>
               (mpcSolve [st.px, st.py, st.psi, st.v, st.cte, st.epsi] st.coeffs).vars.getD
                 (x_start + i) 0),
             mpc_y := (List.range N).map (fun i =>
               (mpcSolve [st.px, st.py, st.psi, st.v, st.cte, st.epsi] st.coeffs).vars.getD
                 (y_start + i) 0),
             next_x := st.ptsx, next_y := st.ptsy })] := by
  unfold telemetryReply
  simp only [bind, Except.bind, pure, Except.pure, hst, steerJson_eq pi _ _ _ hvars]

/-- The shape of the effects of a cycle that sends a command. -/
theorem telemetryReply_ok_inv (cos sin atan : α → α) (atan2 : α → α → α) (pi : α)
    (solve : List (List α) → List α → List α)
    (mpcSolve : List α → List α → SolveOutcome α) (t : Telemetry α)
    (effects : List (Effect α))
    (h : telemetryReply cos sin atan atan2 pi solve mpcSolve t = Except.ok effects) :
    ∃ (st : CycleState α) (msg : SteerJson α),
      telemetryState cos sin atan atan2 solve t = Except.ok st ∧
      steerJson pi (mpcSolve [st.px, st.py, st.psi, st.v, st.cte, st.epsi] st.coeffs).vars
        st.ptsx st.ptsy = Except.ok msg ∧
      effects = [Effect.solve [st.px, st.py, st.psi, st.v, st.cte, st.epsi] st.coeffs,
        Effect.sleep 100, Effect.send (Frame.steer msg)] := by
  unfold telemetryReply at h
  simp only [bind, Except.bind, pure, Except.pure] at h
  split at h
  · exact Except.noConfusion h
  · rename_i st hst
    split at h
    · exact Except.noConfusion h
    · rename_i msg hmsg
      exact ⟨st, msg, hst, hmsg, (Except.ok.inj h).symm⟩

/-- A telemetry event without waypoints ends in the failed assertion of
`polyfit`, before the optimizer is called. -/
theorem telemetryReply_no_waypoints (cos sin atan : α → α) (atan2 : α → α → α) (pi : α)
    (solve : List (List α) → List α → List α)
    (mpcSolve : List α → List α → SolveOutcome α) (t : Telemetry α)
    (h : t.ptsx.length = 0) :
    telemetryState cos sin atan atan2 solve t = Except.error Fault.assertionFailed ∧
    telemetryReply cos sin atan atan2 pi solve mpcSolve t =
      Except.error Fault.assertionFailed := by
  have hnil : t.ptsx = [] := List.length_eq_zero.mp h
  have hst : telemetryState cos sin atan atan2 solve t = Except.error Fault.assertionFailed := by
    unfold telemetryState
    simp only [bind, Except.bind, pure, Except.pure, hnil, mapToCarFrame, List.length_nil,
      List.range_zero, List.foldlM_nil]
    rw [polyfit_eq_error solve [] t.ptsy _ (Or.inl (by simp))]
  refine ⟨hst, ?_⟩
  unfold telemetryReply
  simp only [bind, Except.bind, hst]

end HandlerLemmas

section HandlerLemmas2

variable {α : Type} [LinearOrderedField α]

/-- A frame without payload is answered by the acknowledgment of manual
driving and by nothing else. -/
theorem onMessage_eq_manual (cos sin atan : α → α) (atan2 : α → α → α) (pi : α)
    (solve : List (List α) → List α → List α)
    (mpcSolve : List α → List α → SolveOutcome α)
    (decode : List Char → Except Fault (List Char × Telemetry α)) (sdata : List Char)
    (hsize : 2 < sdata.length) (h4 : sdata[0]? = some '4') (h2 : sdata[1]? = some '2')
    (hdata : hasData sdata = []) :
    onMessage cos sin atan atan2 pi solve mpcSolve decode sdata =
      Except.ok [Effect.send (Frame.text manualMsg)] := by
  unfold onMessage
  rw [if_pos ⟨hsize, h4, h2⟩]
  simp only [hdata, ne_eq, not_true_eq_false, if_false]
  rfl

/-- A frame whose payload decodes to a telemetry event is handled by the
telemetry branch. -/
theorem onMessage_eq_telemetryReply (cos sin atan : α → α) (atan2 : α → α → α) (pi : α)
    (solve : List (List α) → List α → List α)
    (mpcSolve : List α → List α → SolveOutcome α)
    (decode : List Char → Except Fault (List Char × Telemetry α)) (sdata : List Char)
    (t : Telemetry α)
    (hsize : 2 < sdata.length) (h4 : sdata[0]? = some '4') (h2 : sdata[1]? = some '2')
    (hdata : hasData sdata ≠ [])
    (hdecode : decode (hasData sdata) = Except.ok ("telemetry".toList, t)) :
    onMessage cos sin atan atan2 pi solve mpcSolve decode sdata =
      telemetryReply cos sin atan atan2 pi solve mpcSolve t := by
  unfold onMessage
  rw [if_pos ⟨hsize, h4, h2⟩]
  simp only [hdata, ne_eq, not_false_eq_true, if_true, bind, Except.bind, hdecode]

/-- The value of a control cycle whose frame transform and fit have
returned. -/
theorem telemetryState_of_polyfit (cos sin atan : α → α) (atan2 : α → α → α)
    (solve : List (List α) → List α → List α) (t : Telemetry α)
    (ptsx ptsy coeffs : List α)
    (hm : mapToCarFrame cos sin [t.x, t.y, unwrapAngle cos sin atan2 t.psi] t.ptsx t.ptsy =
      Except.ok (ptsx, ptsy))
    (hf : polyfit solve ptsx ptsy (polyfitOrder t.ptsx.length) = Except.ok coeffs) :
    telemetryState cos sin atan atan2 solve t =
      Except.ok
        { ptsx := ptsx, ptsy := ptsy, coeffs := coeffs, px := 0, py := 0, psi := 0,
          v := t.speed, cte := 0 - polyeval coeffs 0,
          epsi := unwrapAngle cos sin atan2
            (0 - disambiguateHeading cos sin atan2 (atan (evalPolynomialGradient coeffs 0))
              (ptsx.getD 1 0 - ptsx.getD 0 0) (ptsy.getD 1 0 - ptsy.getD 0 0)) } := by
  obtain ⟨hl, h1, h2, -⟩ := polyfit_ok_inv _ _ _ _ _ hf
  have hx : 2 ≤ ptsx.length := by omega
  unfold telemetryState
  simp only [bind, Except.bind, pure, Except.pure, hm, hf,
    index_eq_ok_getD (show 1 < ptsx.length by omega),
    index_eq_ok_getD (show 0 < ptsx.length by omega),
    index_eq_ok_getD (show 1 < ptsy.length by omega),
    index_eq_ok_getD (show 0 < ptsy.length by omega)]

/-- The heading error of a control cycle that reaches the optimizer. -/
theorem telemetryState_ok_heading (cos sin atan : α → α) (atan2 : α → α → α)
    (solve : List (List α) → List α → List α) (t : Telemetry α) (st : CycleState α)
    (h : telemetryState cos sin atan atan2 solve t = Except.ok st) :
    ∃ x0 x1 y0 y1 : α,
      st.ptsx[0]? = some x0 ∧ st.ptsx[1]? = some x1 ∧
      st.ptsy[0]? = some y0 ∧ st.ptsy[1]? = some y1 ∧
      st.epsi = unwrapAngle cos sin atan2
        (0 - disambiguateHeading cos sin atan2 (atan (evalPolynomialGradient st.coeffs 0))
          (x1 - x0) (y1 - y0)) := by
  unfold telemetryState at h
  simp only [bind, Except.bind, pure, Except.pure] at h
  split at h
  · exact Except.noConfusion h
  · rename_i pts hm
    obtain ⟨ptsx, ptsy⟩ := pts
    simp only at h
    split at h
    · exact Except.noConfusion h
    · rename_i coeffs hf
      split at h
      · exact Except.noConfusion h
      · rename_i x1 hx1
        split at h
        · exact Except.noConfusion h
        · rename_i x0 hx0
          split at h
          · exact Except.noConfusion h
          · rename_i y1 hy1
            split at h
            · exact Except.noConfusion h
            · rename_i y0 hy0
              have := Except.ok.inj h
              subst this
              exact ⟨x0, x1, y0, y1, index_ok_iff.mp hx0, index_ok_iff.mp hx1,
                index_ok_iff.mp hy0, index_ok_iff.mp hy1, rfl⟩

theorem evalPolynomialGradient_zero (coeffs : List α) :
    evalPolynomialGradient coeffs 0 = coeffs.getD 1 0 := by
  rw [evalPolynomialGradient_eq_sum]
  rcases Nat.lt_or_ge coeffs.length 2 with h | h
  · have h1 : coeffs.length - 1 = 0 := by omega
    rw [h1, Finset.sum_range_zero, List.getD_eq_getElem?_getD,
      List.getElem?_eq_none (by omega)]
    rfl
  · obtain ⟨m, hm⟩ : ∃ m, coeffs.length - 1 = m + 1 := ⟨coeffs.length - 2, by omega⟩
    rw [hm, Finset.sum_range_succ']
    simp

/-- A trailing zero coefficient does not change the polynomial. -/
theorem polyeval_append_zero (c : List α) (x : α) : polyeval (c ++ [0]) x = polyeval c x := by
  rw [polyeval_eq_sum, polyeval_eq_sum, List.length_append, List.length_singleton,
    Finset.sum_range_succ]
  have hlast : (c ++ [0]).getD c.length 0 = 0 := by
    simp [List.getD_eq_getElem?_getD]
  rw [hlast, zero_mul, add_zero]
  apply Finset.sum_congr rfl
  intro i hi
  have hi' : i < c.length := Finset.mem_range.mp hi
  simp [List.getD_eq_getElem?_getD, List.getElem?_append_left hi']

theorem sqResidual_eq_fitResidual (xvals yvals c : List α) (order : Nat)
    (hc : c.length = order + 1) :
    sqResidual (designMatrix xvals order) c yvals = fitResidual xvals yvals c :=
  sqResidual_designMatrix xvals yvals c order hc

/-- A least-squares fit of order `d` has no larger residual than any
coefficient list of order `d - 1`. -/
theorem fitResidual_le_of_leastSquares (xvals yvals cd c : List α) (d : Nat)
    (hn : 0 < xvals.length) (hc : c.length = d)
    (hsolve : IsLeastSquares (designMatrix xvals d) yvals cd) :
    fitResidual xvals yvals cd ≤ fitResidual xvals yvals c := by
  obtain ⟨hlen, hmin⟩ := hsolve
  rw [designMatrix_headD_length xvals d hn] at hlen
  have h1 := hmin (c ++ [0]) (by simp [hc, hlen])
  rw [sqResidual_eq_fitResidual _ _ _ d hlen,
    sqResidual_eq_fitResidual _ _ _ d (by simp [hc])] at h1
  have h2 : fitResidual xvals yvals (c ++ [0]) = fitResidual xvals yvals c := by
    unfold fitResidual
    simp only [polyeval_append_zero]
  rwa [h2] at h1

end HandlerLemmas2

/-- The derivative at 0 of the polynomial that `polyeval` evaluates is the
coefficient of index 1. -/
theorem deriv_polyeval_zero (coeffs : List ℝ) :
    deriv (fun x => polyeval coeffs x) 0 = coeffs.getD 1 0 := by
  obtain ⟨p, -, hpc, hpe⟩ := exists_polynomial coeffs
  have hfun : (fun x => polyeval coeffs x) = fun x => p.eval x := by
    funext x
    exact (hpe x).symm
  rw [hfun, Polynomial.deriv, ← Polynomial.coeff_zero_eq_eval_zero, Polynomial.coeff_derivative,
    hpc]
  simp

/-! ## The payload extraction -/

theorem hasData_of_null (s : List Char) (h : find s "null".toList ≠ none) : hasData s = [] := by
  have h' : find s ['n', 'u', 'l', 'l'] ≠ none := h
  unfold hasData
  simp only []
  rw [if_pos h']

theorem hasData_of_missing (s : List Char)
    (h : find_first_of s "[".toList = none ∨ rfind s "\x7d]".toList = none) :
    hasData s = [] := by
  unfold hasData
  simp only []
  split_ifs
  · rfl
  · rcases h with h | h
    · have h' : find_first_of s ['['] = none := h
      rw [h']
    · have h' : rfind s ['}', ']'] = none := h
      rw [h']
      cases find_first_of s ['['] <;> rfl

/-- Where the first `[` comes before the last `}]`, `hasData` returns the
text from the one to the other: it begins with `[` and ends with `}]`. -/
theorem hasData_of_le (s : List Char) (b1 b2 : Nat) (hsize : s.length < 2 ^ 64)
    (hnull : find s "null".toList = none)
    (h1 : find_first_of s "[".toList = some b1) (h2 : rfind s "\x7d]".toList = some b2)
    (hle : b1 ≤ b2) :
    hasData s = substr s b1 (b2 - b1 + 2) ∧
    ∃ mid : List Char, hasData s = '[' :: (mid ++ ['}', ']']) := by
  have hnull' : find s ['n', 'u', 'l', 'l'] = none := hnull
  have h1' : find_first_of s ['['] = some b1 := h1
  have h2' : rfind s ['}', ']'] = some b2 := h2
  -- the character at `b1`
  have hp1 := List.find?_some h1'
  obtain ⟨r1, hr1⟩ : ∃ r1, s.drop b1 = '[' :: r1 := by
    cases hd : s.drop b1 with
    | nil => rw [hd] at hp1; simp at hp1
    | cons c r =>
      rw [hd] at hp1
      simp at hp1
      exact ⟨r, by rw [hp1]⟩
  -- the two characters at `b2`
  have hp2 := List.find?_some h2'
  have hp2' : (s.drop b2).take 2 = ['}', ']'] := by simpa using hp2
  obtain ⟨r2, hr2⟩ : ∃ r2, s.drop b2 = '}' :: ']' :: r2 := by
    match hd : s.drop b2, hp2' with
    | [], h => rw [hd] at hp2'; simp at hp2'
    | [_], h => rw [hd] at hp2'; simp at hp2'
    | a :: b :: r, h =>
      rw [hd] at hp2'
      simp at hp2'
      exact ⟨r, by rw [hp2'.1, hp2'.2]⟩
  have hb2 : b2 + 2 ≤ s.length := by
    have := congrArg List.length hr2
    simp at this
    omega
  have hne : b1 ≠ b2 := by
    intro h
    rw [h, hr2] at hr1
    exact absurd (List.cons.inj hr1).1 (by decide)
  have hlt : b1 < b2 := lt_of_le_of_ne hle hne
  have hmod : (b2 + 2 ^ 64 - b1 + 2) % 2 ^ 64 = b2 - b1 + 2 := by
    norm_num at hsize ⊢
    omega
  have hval : hasData s = substr s b1 (b2 - b1 + 2) := by
    unfold hasData
    simp only [hnull', h1', h2', ne_eq, not_true_eq_false, if_false, hmod]
  refine ⟨hval, ?_⟩
  rw [hval]
  unfold substr
  have hdrop : (s.drop b1).drop (b2 - b1) = '}' :: ']' :: r2 := by
    rw [List.drop_drop, ← hr2]
    congr 1
    omega
  have hsplit : (s.drop b1).take (b2 - b1 + 2) =
      (s.drop b1).take (b2 - b1) ++ ((s.drop b1).drop (b2 - b1)).take 2 := by
    rw [List.take_add]
  rw [hsplit, hdrop, hr1]
  obtain ⟨m, hm⟩ : ∃ m, b2 - b1 = m + 1 := ⟨b2 - b1 - 1, by omega⟩
  rw [hm]
  exact ⟨r1.take m, by simp⟩

/-! ## The claims of the specification -/

/-- Claim C1. For every pose `(x, y, psi)` and waypoint lists of equal length,
`mapToCarFrame` returns two lists of the same lengths as its inputs, and at
every index `i` the point `(gx, gy) = (ptsx[i], ptsy[i])` of the input is
replaced by `(cos psi * dx + sin psi * dy, -sin psi * dx + cos psi * dy)` with
`dx = gx - x` and `dy = gy - y`. -/
theorem mapToCarFrame_pointwise (x y psi : ℝ) (ptsx ptsy : List ℝ)
    (hlen : ptsx.length = ptsy.length) :
    ∃ lx ly : List ℝ,
      mapToCarFrame Real.cos Real.sin [x, y, psi] ptsx ptsy = Except.ok (lx, ly) ∧
      lx.length = ptsx.length ∧ ly.length = ptsy.length ∧
      ∀ (i : Nat) (gx gy : ℝ), ptsx[i]? = some gx → ptsy[i]? = some gy →
        lx[i]? = some (Real.cos psi * (gx - x) + Real.sin psi * (gy - y)) ∧
        ly[i]? = some (-Real.sin psi * (gx - x) + Real.cos psi * (gy - y)) := by
  refine ⟨_, _, mapToCarFrame_eq Real.cos Real.sin x y psi ptsx ptsy hlen, ?_, ?_, ?_⟩
  · simp [hlen]
  · simp [hlen]
  · intro i gx gy hx hy
    simp [List.getElem?_zipWith, hx, hy]

/-- Claim C1 at the pose `(1, 2, 0)` and the points `(1, 2)`, `(4, 6)`. -/
theorem mapToCarFrame_pointwise_witness :
    ([1, 4] : List ℝ).length = ([2, 6] : List ℝ).length ∧
    ∃ lx ly : List ℝ,
      mapToCarFrame Real.cos Real.sin [1, 2, 0] [1, 4] [2, 6] = Except.ok (lx, ly) ∧
      lx.length = ([1, 4] : List ℝ).length ∧ ly.length = ([2, 6] : List ℝ).length ∧
      ∀ (i : Nat) (gx gy : ℝ), ([1, 4] : List ℝ)[i]? = some gx → ([2, 6] : List ℝ)[i]? = some gy →
        lx[i]? = some (Real.cos 0 * (gx - 1) + Real.sin 0 * (gy - 2)) ∧
        ly[i]? = some (-Real.sin 0 * (gx - 1) + Real.cos 0 * (gy - 2)) :=
  ⟨rfl, mapToCarFrame_pointwise 1 2 0 [1, 4] [2, 6] rfl⟩

/-- Claim C2. `mapToCarFrame` is invertible for every heading: the inverse
rotation and translation `(x + cos psi * lx - sin psi * ly,
y + sin psi * lx + cos psi * ly)` of every point `(lx, ly)` it produces is the
global point `(gx, gy)` it was computed from, exactly over the reals. -/
theorem mapToCarFrame_invertible (x y psi : ℝ) (ptsx ptsy : List ℝ)
    (hlen : ptsx.length = ptsy.length) :
    ∃ lx ly : List ℝ,
      mapToCarFrame Real.cos Real.sin [x, y, psi] ptsx ptsy = Except.ok (lx, ly) ∧
      ∀ (i : Nat) (gx gy : ℝ), ptsx[i]? = some gx → ptsy[i]? = some gy →
        ∃ px py : ℝ, lx[i]? = some px ∧ ly[i]? = some py ∧
          x + Real.cos psi * px - Real.sin psi * py = gx ∧
          y + Real.sin psi * px + Real.cos psi * py = gy := by
  refine ⟨_, _, mapToCarFrame_eq Real.cos Real.sin x y psi ptsx ptsy hlen, ?_⟩
  intro i gx gy hx hy
  refine ⟨Real.cos psi * (gx - x) + Real.sin psi * (gy - y),
    -Real.sin psi * (gx - x) + Real.cos psi * (gy - y), ?_, ?_, ?_, ?_⟩
  · simp [List.getElem?_zipWith, hx, hy]
  · simp [List.getElem?_zipWith, hx, hy]
  · linear_combination (gx - x) * Real.cos_sq_add_sin_sq psi
  · linear_combination (gy - y) * Real.cos_sq_add_sin_sq psi

/-- Claim C2 at the pose `(1, 2, pi)` and the single global point `(4, 6)`. -/
theorem mapToCarFrame_invertible_witness :
    ([4] : List ℝ).length = ([6] : List ℝ).length ∧
    ∃ lx ly : List ℝ,
      mapToCarFrame Real.cos Real.sin [1, 2, Real.pi] [4] [6] = Except.ok (lx, ly) ∧
      ∀ (i : Nat) (gx gy : ℝ), ([4] : List ℝ)[i]? = some gx → ([6] : List ℝ)[i]? = some gy →
        ∃ px py : ℝ, lx[i]? = some px ∧ ly[i]? = some py ∧
          1 + Real.cos Real.pi * px - Real.sin Real.pi * py = gx ∧
          2 + Real.sin Real.pi * px + Real.cos Real.pi * py = gy :=
  ⟨rfl, mapToCarFrame_invertible 1 2 Real.pi [4] [6] rfl⟩

/-- Claim C3, evaluated at three waypoints, where it fails: the control loop
computes the order 3, not `min(3, 3 - 1) = 2`, and the cycle ends in the
failed assertion `order <= xvals.size() - 1` of `polyfit`. -/
theorem polyfitOrder_three_waypoints :
    polyfitOrder 3 = 3 ∧ min (3 : Int) ((3 : Nat) - 1 : Int) = 2 ∧
    ∀ solve : List (List ℝ) → List ℝ → List ℝ,
      telemetryState Real.cos Real.sin Real.arctan (fun y x => Complex.arg ⟨x, y⟩) solve
          { ptsx := [10, 20, 30], ptsy := [0, 0, 0], x := 0, y := 0, psi := 0, speed := 20 } =
        Except.error Fault.assertionFailed :=
  ⟨by decide, by decide, fun solve => telemetryState_three _ _ _ _ solve _ rfl rfl⟩

/-- Claim C4 as stated fails: with no points at all `polyfit` does not hand an
error value to its caller, it ends in a failed assertion, which aborts the
process. -/
theorem polyfit_no_points_aborts :
    ¬ ∃ e : Fault, polyfit (fun _ _ => ([] : List ℝ)) [] [] 1 = Except.error e ∧
      e.abortsProcess = false := by
  rintro ⟨e, he, hf⟩
  rw [polyfit_eq_error _ _ _ _ (Or.inl (by decide))] at he
  rw [← Except.error.inj he] at hf
  exact Bool.noConfusion hf

/-- Claim C4, amended: for every requested order, whenever fewer than two
points are supplied or the `x` and `y` sequences have different lengths,
`polyfit` returns no coefficients and ends in a failed assertion, which aborts
the process. -/
theorem polyfit_invalid_input_aborts (solve : List (List ℝ) → List ℝ → List ℝ)
    (xvals yvals : List ℝ) (order : Int)
    (h : xvals.length < 2 ∨ xvals.length ≠ yvals.length) :
    polyfit solve xvals yvals order = Except.error Fault.assertionFailed ∧
      Fault.abortsProcess Fault.assertionFailed = true :=
  ⟨polyfit_eq_error solve xvals yvals order h, rfl⟩

/-- Claim C4, amended, at one point `(7, 1)` and at the sequences `[1, 2, 3]`,
`[4, 5]` of different lengths, both with order 1. -/
theorem polyfit_invalid_input_aborts_witness :
    ((([7] : List ℝ).length < 2 ∨ ([7] : List ℝ).length ≠ ([1] : List ℝ).length) ∧
      polyfit (fun _ _ => [0, 0]) ([7] : List ℝ) [1] 1 = Except.error Fault.assertionFailed ∧
      Fault.abortsProcess Fault.assertionFailed = true) ∧
    ((([1, 2, 3] : List ℝ).length < 2 ∨
        ([1, 2, 3] : List ℝ).length ≠ ([4, 5] : List ℝ).length) ∧
      polyfit (fun _ _ => [0, 0]) ([1, 2, 3] : List ℝ) [4, 5] 1 =
        Except.error Fault.assertionFailed ∧
      Fault.abortsProcess Fault.assertionFailed = true) :=
  ⟨⟨Or.inl (by decide),
      polyfit_invalid_input_aborts (fun _ _ => [0, 0]) [7] [1] 1 (Or.inl (by decide))⟩,
   ⟨Or.inr (by decide),
      polyfit_invalid_input_aborts (fun _ _ => [0, 0]) [1, 2, 3] [4, 5] 1 (Or.inr (by decide))⟩⟩

/-- Claim C5. Exact interpolation: for `n >= 2` points with pairwise distinct
`x`-values and `order = n - 1`, when the QR solve returns a least-squares
solution of the system that `polyfit` builds, `polyfit` returns `n`
coefficients and `polyeval` reproduces every `yvals[j]` at `xvals[j]`. -/
theorem polyfit_interpolates (solve : List (List ℝ) → List ℝ → List ℝ)
    (xvals yvals : List ℝ) (hlen : xvals.length = yvals.length) (hn : 2 ≤ xvals.length)
    (hdistinct : xvals.Nodup)
    (hsolve : IsLeastSquares (designMatrix xvals (xvals.length - 1)) yvals
      (solve (designMatrix xvals (xvals.length - 1)) yvals)) :
    ∃ coeffs : List ℝ,
      polyfit solve xvals yvals ((xvals.length : Int) - 1) = Except.ok coeffs ∧
      coeffs.length = xvals.length ∧
      ∀ (j : Nat) (x y : ℝ), xvals[j]? = some x → yvals[j]? = some y →
        polyeval coeffs x = y := by
  have hto : ((xvals.length : Int) - 1).toNat = xvals.length - 1 := by omega
  refine ⟨_, polyfit_eq_ok solve xvals yvals _ hlen (by omega) (le_refl _), ?_⟩
  rw [hto]
  have hex : ∃ c' : List ℝ, c'.length = xvals.length - 1 + 1 ∧
      ∀ j, j < xvals.length → polyeval c' (xvals.getD j 0) = yvals.getD j 0 := by
    obtain ⟨c', h1, h2⟩ := exists_interpolating xvals yvals hdistinct
    exact ⟨c', by omega, h2⟩
  obtain ⟨h1, h2⟩ := leastSquares_interpolates xvals yvals _ (xvals.length - 1) (by omega)
    hex hsolve
  refine ⟨by omega, ?_⟩
  intro j x y hx hy
  have := h2 j (lt_length_of_getElem? hx)
  rwa [getD_of_getElem? hx, getD_of_getElem? hy] at this

/-- Claim C5 at the points `(0, 1)`, `(1, 3)`, which the line `1 + 2 x`
interpolates. -/
theorem polyfit_interpolates_witness :
    ∃ coeffs : List ℝ,
      polyfit (fun _ _ => [1, 2]) [0, 1] [1, 3] ((([0, 1] : List ℝ).length : Int) - 1) =
        Except.ok coeffs ∧
      coeffs.length = ([0, 1] : List ℝ).length ∧
      ∀ (j : Nat) (x y : ℝ), ([0, 1] : List ℝ)[j]? = some x → ([1, 3] : List ℝ)[j]? = some y →
        polyeval coeffs x = y :=
  polyfit_interpolates (fun _ _ => [1, 2]) [0, 1] [1, 3] rfl (by decide) (by simp)
    ⟨by simp [designMatrix], fun c' _ => by
      have h0 : sqResidual (designMatrix ([0, 1] : List ℝ) (([0, 1] : List ℝ).length - 1))
          [1, 2] [1, 3] = 0 := by
        simp [sqResidual, designMatrix, designEntry, Finset.sum_range_succ]
        norm_num
      rw [h0]
      exact sqResidual_nonneg _ _ _⟩

/-- Claim C6. In every control cycle that reaches the optimizer, with a solver
that returns one coefficient for each column of the matrix, the state handed
to the solver has `x = 0`, `y = 0`, `psi = 0`, the telemetry speed unchanged
and `cte = 0 - polyeval(coeffs, 0)`; the coefficient vector has an entry
`coeffs[0]`, `polyeval(coeffs, 0)` is that entry and `cte = -coeffs[0]`. -/
theorem telemetryState_initial_state (solve : List (List ℝ) → List ℝ → List ℝ)
    (hdim : ∀ A y, (solve A y).length = (A.headD []).length)
    (t : Telemetry ℝ) (st : CycleState ℝ)
    (h : telemetryState Real.cos Real.sin Real.arctan (fun y x => Complex.arg ⟨x, y⟩) solve t =
      Except.ok st) :
    st.px = 0 ∧ st.py = 0 ∧ st.psi = 0 ∧ st.v = t.speed ∧
      st.cte = 0 - polyeval st.coeffs 0 ∧
      ∃ c0 : ℝ, st.coeffs[0]? = some c0 ∧ polyeval st.coeffs 0 = c0 ∧ st.cte = -c0 := by
  obtain ⟨dh, hm, hf, hpx, hpy, hpsi, hv, hcte, -⟩ := telemetryState_ok_inv _ _ _ _ _ _ _ h
  obtain ⟨hl, h1, h2, hc⟩ := polyfit_ok_inv _ _ _ _ _ hf
  have hpos : 0 < st.coeffs.length := by
    rw [hc, hdim, designMatrix_headD_length _ _ (by omega)]
    omega
  refine ⟨hpx, hpy, hpsi, hv, hcte, st.coeffs[0], List.getElem?_eq_getElem hpos, ?_, ?_⟩
  · rw [polyeval_zero, List.getD_eq_getElem?_getD, List.getElem?_eq_getElem hpos]
    rfl
  · rw [hcte, polyeval_zero, List.getD_eq_getElem?_getD, List.getElem?_eq_getElem hpos]
    simp

/-- Claim C6 at the straight-ahead scenario of the specification
(`ptsx = [10, 20, 30, 40]`, `ptsy = [0, 0, 0, 0]`, speed 20) with the solver
that returns the zero vector. -/
theorem telemetryState_initial_state_witness :
    (0 : ℝ) = 0 ∧ (0 : ℝ) = 0 ∧ (0 : ℝ) = 0 ∧ (20 : ℝ) = 20 ∧
      (-0 : ℝ) = 0 - polyeval ([0, 0, 0, 0] : List ℝ) 0 ∧
      ∃ c0 : ℝ, ([0, 0, 0, 0] : List ℝ)[0]? = some c0 ∧
        polyeval ([0, 0, 0, 0] : List ℝ) 0 = c0 ∧ (-0 : ℝ) = -c0 :=
  telemetryState_initial_state (fun A _ => List.replicate (A.headD []).length 0)
    (fun _ _ => List.length_replicate _ _)
    { ptsx := [10, 20, 30, 40], ptsy := [0, 0, 0, 0], x := 0, y := 0, psi := 0, speed := 20 }
    { ptsx := [10, 20, 30, 40], ptsy := [0, 0, 0, 0], coeffs := [0, 0, 0, 0],
      px := 0, py := 0, psi := 0, v := 20, cte := -0, epsi := 0 }
    (telemetryState_scenario _ 0 (by simp [designMatrix]))

/-- Claim C7, evaluated at `coeffs = [0, 0, 1]` (the polynomial `x ^ 2`) and
`x = 1`, where it fails: `evalPolynomialGradient` returns 1, the derivative of
the polynomial that `polyeval` evaluates is 2. -/
theorem evalPolynomialGradient_square :
    evalPolynomialGradient ([0, 0, 1] : List ℝ) 1 = 1 ∧
    deriv (fun x => polyeval ([0, 0, 1] : List ℝ) x) 1 = 2 := by
  constructor
  · simp [evalPolynomialGradient_eq_sum, Finset.sum_range_succ]
  · have : (fun x => polyeval ([0, 0, 1] : List ℝ) x) = fun x => x ^ 2 := by
      funext x
      simp [polyeval_eq_sum, Finset.sum_range_succ]
    rw [this]
    simp

/-- Claim C9. Angle normalisation: for every real angle `a` the value
`atan2(sin a, cos a)` lies in `(-pi, pi]` and differs from `a` by an integer
multiple of `2 pi`; in every cycle that reaches the optimizer the heading
error `epsi` of the state lies in `(-pi, pi]`, and the heading with which the
waypoints were transformed lies in `(-pi, pi]` and differs from the telemetry
heading by an integer multiple of `2 pi`. -/
theorem unwrapAngle_normalises :
    (∀ a : ℝ,
      unwrapAngle Real.cos Real.sin (fun y x => Complex.arg ⟨x, y⟩) a ∈
        Set.Ioc (-Real.pi) Real.pi ∧
      ∃ k : ℤ, unwrapAngle Real.cos Real.sin (fun y x => Complex.arg ⟨x, y⟩) a - a =
        k * (2 * Real.pi)) ∧
    ∀ (solve : List (List ℝ) → List ℝ → List ℝ) (t : Telemetry ℝ) (st : CycleState ℝ),
      telemetryState Real.cos Real.sin Real.arctan (fun y x => Complex.arg ⟨x, y⟩) solve t =
        Except.ok st →
      st.epsi ∈ Set.Ioc (-Real.pi) Real.pi ∧
      ∃ psi : ℝ, psi ∈ Set.Ioc (-Real.pi) Real.pi ∧ (∃ k : ℤ, psi - t.psi = k * (2 * Real.pi)) ∧
        mapToCarFrame Real.cos Real.sin [t.x, t.y, psi] t.ptsx t.ptsy =
          Except.ok (st.ptsx, st.ptsy) := by
  have hk : ∀ a : ℝ, ∃ k : ℤ,
      unwrapAngle Real.cos Real.sin (fun y x => Complex.arg ⟨x, y⟩) a - a =
        k * (2 * Real.pi) := by
    intro a
    refine ⟨⌊(Real.pi - a) / (2 * Real.pi)⌋, ?_⟩
    rw [unwrapAngle_real, Complex.arg_cos_add_sin_mul_I_sub]
    ring
  refine ⟨fun a => ⟨unwrapAngle_mem a, hk a⟩, ?_⟩
  intro solve t st h
  obtain ⟨dh, hm, -, -, -, -, -, -, hepsi⟩ := telemetryState_ok_inv _ _ _ _ _ _ _ h
  refine ⟨?_, _, unwrapAngle_mem t.psi, hk t.psi, hm⟩
  rw [hepsi]
  exact unwrapAngle_mem _

/-- Claim C9 at the offset-path scenario of the specification
(`ptsx = [10, 20, 30, 40]`, `ptsy = [5, 5, 5, 5]`, pose at the origin), whose
cycle reaches the optimizer with `epsi = 0`. -/
theorem unwrapAngle_normalises_witness :
    (0 : ℝ) ∈ Set.Ioc (-Real.pi) Real.pi ∧
      ∃ psi : ℝ, psi ∈ Set.Ioc (-Real.pi) Real.pi ∧ (∃ k : ℤ, psi - 0 = k * (2 * Real.pi)) ∧
        mapToCarFrame Real.cos Real.sin [0, 0, psi] [10, 20, 30, 40] [5, 5, 5, 5] =
          Except.ok ([10, 20, 30, 40], [5, 5, 5, 5]) :=
  unwrapAngle_normalises.2 (fun _ _ => [5, 0, 0, 0])
    { ptsx := [10, 20, 30, 40], ptsy := [5, 5, 5, 5], x := 0, y := 0, psi := 0, speed := 20 }
    { ptsx := [10, 20, 30, 40], ptsy := [5, 5, 5, 5], coeffs := [5, 0, 0, 0],
      px := 0, py := 0, psi := 0, v := 20, cte := -5, epsi := 0 }
    (telemetryState_scenario _ 5 rfl)

/-- Claim C10. End-to-end constant-offset path: for the pose `x = 0`, `y = 0`,
`psi = 0` and at least four waypoints with pairwise distinct `x`-values,
`ptsx[0] < ptsx[1]` and all `y`-values equal to `c`, when the QR solve
returns a least-squares solution the control cycle reaches the optimizer with
the coefficients `[c, 0, 0, 0]`, `cte = -c` and `epsi = 0`. -/
theorem telemetryState_constant_offset (solve : List (List ℝ) → List ℝ → List ℝ)
    (ptsx ptsy : List ℝ) (c speed : ℝ) (hlen : ptsx.length = ptsy.length)
    (hn : 4 ≤ ptsx.length) (hdistinct : ptsx.Nodup) (hfwd : ptsx.getD 0 0 < ptsx.getD 1 0)
    (hconst : ∀ y ∈ ptsy, y = c)
    (hsolve : IsLeastSquares (designMatrix ptsx 3) ptsy (solve (designMatrix ptsx 3) ptsy)) :
    ∃ st : CycleState ℝ,
      telemetryState Real.cos Real.sin Real.arctan (fun y x => Complex.arg ⟨x, y⟩) solve
        { ptsx := ptsx, ptsy := ptsy, x := 0, y := 0, psi := 0, speed := speed } =
        Except.ok st ∧
      st.coeffs = [c, 0, 0, 0] ∧ st.cte = -c ∧ st.epsi = 0 :=
  ⟨_, telemetryState_const solve ptsx ptsy c speed hlen hn hdistinct hfwd hconst hsolve,
    rfl, rfl, rfl⟩

/-- Claim C10 at the two scenarios of the specification:
`ptsx = [10, 20, 30, 40]` with `ptsy = [0, 0, 0, 0]` gives `cte = 0` and
`epsi = 0`, with `ptsy = [5, 5, 5, 5]` it gives `cte = -5` and `epsi = 0`. -/
theorem telemetryState_constant_offset_witness :
    (∃ st : CycleState ℝ,
      telemetryState Real.cos Real.sin Real.arctan (fun y x => Complex.arg ⟨x, y⟩)
        (fun _ _ => [0, 0, 0, 0])
        { ptsx := [10, 20, 30, 40], ptsy := [0, 0, 0, 0], x := 0, y := 0, psi := 0,
          speed := 20 } = Except.ok st ∧
      st.coeffs = [0, 0, 0, 0] ∧ st.cte = -0 ∧ st.epsi = 0) ∧
    ∃ st : CycleState ℝ,
      telemetryState Real.cos Real.sin Real.arctan (fun y x => Complex.arg ⟨x, y⟩)
        (fun _ _ => [5, 0, 0, 0])
        { ptsx := [10, 20, 30, 40], ptsy := [5, 5, 5, 5], x := 0, y := 0, psi := 0,
          speed := 20 } = Except.ok st ∧
      st.coeffs = [5, 0, 0, 0] ∧ st.cte = -5 ∧ st.epsi = 0 :=
  ⟨telemetryState_constant_offset (fun _ _ => [0, 0, 0, 0]) [10, 20, 30, 40] [0, 0, 0, 0] 0 20
      rfl (by simp) (by simp) (by simp; norm_num) (by simp) (isLeastSquares_const 0),
   telemetryState_constant_offset (fun _ _ => [5, 0, 0, 0]) [10, 20, 30, 40] [5, 5, 5, 5] 5 20
      rfl (by simp) (by simp) (by simp; norm_num) (by simp) (isLeastSquares_const 5)⟩

/-- Claim C11. Result layout: with `N = 10` the offsets are `x` at 0, `y` at
`N`, `psi` at `2 N`, `v` at `3 N`, `cte` at `4 N`, `epsi` at `5 N`, `delta` at
`6 N` and `a` at `7 N - 1`; each block ends where the next one starts, the
last one ends at `8 N - 2`, every index below `8 N - 2` lies in exactly one
block and no other index lies in a block. -/
theorem result_layout :
    N = 10 ∧ x_start = 0 ∧ y_start = N ∧ psi_start = 2 * N ∧ v_start = 3 * N ∧
    cte_start = 4 * N ∧ epsi_start = 5 * N ∧ delta_start = 6 * N ∧ a_start = 7 * N - 1 ∧
    List.Chain' (fun b c : Nat × Nat => b.1 + b.2 = c.1) resultBlocks ∧
    a_start + (N - 1) = 8 * N - 2 ∧
    (∀ k, k < 8 * N - 2 →
      (resultBlocks.filter (fun b => decide (b.1 ≤ k ∧ k < b.1 + b.2))).length = 1) ∧
    ∀ k, 8 * N - 2 ≤ k →
      (resultBlocks.filter (fun b => decide (b.1 ≤ k ∧ k < b.1 + b.2))).length = 0 := by
  refine ⟨rfl, rfl, rfl, rfl, rfl, rfl, rfl, rfl, rfl, ?_, rfl, by decide, ?_⟩
  · simp [resultBlocks, N, x_start, y_start, psi_start, v_start, cte_start, epsi_start,
      delta_start, a_start]
  intro k hk
  have hk' : 78 ≤ k := hk
  have h : ∀ b ∈ resultBlocks, ¬ (b.1 ≤ k ∧ k < b.1 + b.2) := by
    intro b hb
    simp only [resultBlocks, N, x_start, y_start, psi_start, v_start, cte_start, epsi_start,
      delta_start, a_start, List.mem_cons, List.mem_singleton, List.not_mem_nil, or_false] at hb
    rcases hb with rfl | rfl | rfl | rfl | rfl | rfl | rfl | rfl <;> simp <;> omega
  rw [List.length_eq_zero, List.filter_eq_nil_iff]
  intro b hb
  simpa using h b hb

/-- Claim C12. Actuator mapping: in every cycle that sends a command, the
outbound `steering_angle` is `-delta0 / deg2rad(25)` for the entry `delta0` of
the solver result at `delta_start` and the outbound `throttle` is the entry
`a0` at `a_start`; when `delta0` lies in `[-deg2rad(25), deg2rad(25)]` and `a0`
in `[-1, 1]`, both outbound values lie in `[-1, 1]`. -/
theorem steer_command_mapping (solve : List (List ℝ) → List ℝ → List ℝ)
    (mpcSolve : List ℝ → List ℝ → SolveOutcome ℝ) (t : Telemetry ℝ)
    (effects : List (Effect ℝ))
    (h : telemetryReply Real.cos Real.sin Real.arctan (fun y x => Complex.arg ⟨x, y⟩) Real.pi
      solve mpcSolve t = Except.ok effects) :
    ∃ (state coeffs : List ℝ) (msg : SteerJson ℝ) (delta0 a0 : ℝ),
      effects = [Effect.solve state coeffs, Effect.sleep 100, Effect.send (Frame.steer msg)] ∧
      (mpcSolve state coeffs).vars[delta_start]? = some delta0 ∧
      (mpcSolve state coeffs).vars[a_start]? = some a0 ∧
      msg.steering_angle = -delta0 / deg2rad Real.pi 25 ∧ msg.throttle = a0 ∧
      (-deg2rad Real.pi 25 ≤ delta0 → delta0 ≤ deg2rad Real.pi 25 → -1 ≤ a0 → a0 ≤ 1 →
        -1 ≤ msg.steering_angle ∧ msg.steering_angle ≤ 1 ∧
        -1 ≤ msg.throttle ∧ msg.throttle ≤ 1) := by
  obtain ⟨st, msg, -, hmsg, heff⟩ := telemetryReply_ok_inv _ _ _ _ _ _ _ _ _ h
  obtain ⟨delta0, a0, hd, ha, hsteer, hthr, -, -⟩ := steerJson_ok_inv _ _ _ _ _ hmsg
  have hpos : 0 < deg2rad Real.pi 25 := by
    unfold deg2rad
    positivity
  have hsteer' : msg.steering_angle = -delta0 / deg2rad Real.pi 25 := by
    rw [hsteer, div_neg, neg_div]
  refine ⟨_, _, msg, delta0, a0, heff, hd, ha, hsteer', hthr, ?_⟩
  intro h1 h2 h3 h4
  rw [hsteer', hthr]
  refine ⟨?_, ?_, h3, h4⟩
  · rw [le_div_iff₀ hpos]
    linarith
  · rw [div_le_iff₀ hpos]
    linarith

/-- Claim C12 at the straight-ahead scenario of the specification with a
solver result of 78 zeros: the command sent is steering 0 and throttle 0. -/
theorem steer_command_mapping_witness :
    ∃ (state coeffs : List ℝ) (msg : SteerJson ℝ) (delta0 a0 : ℝ),
      [Effect.solve [0, 0, 0, 20, -0, 0] [0, 0, 0, 0], Effect.sleep 100,
        Effect.send (Frame.steer
          { steering_angle := (List.replicate 78 (0 : ℝ)).getD delta_start 0 /
              -deg2rad Real.pi 25,
            throttle := (List.replicate 78 (0 : ℝ)).getD a_start 0,
            mpc_x := (List.range N).map (fun i =>
              (List.replicate 78 (0 : ℝ)).getD (x_start + i) 0),
            mpc_y := (List.range N).map (fun i =>
              (List.replicate 78 (0 : ℝ)).getD (y_start + i) 0),
            next_x := [10, 20, 30, 40], next_y := [0, 0, 0, 0] })] =
        [Effect.solve state coeffs, Effect.sleep 100, Effect.send (Frame.steer msg)] ∧
      (List.replicate 78 (0 : ℝ))[delta_start]? = some delta0 ∧
      (List.replicate 78 (0 : ℝ))[a_start]? = some a0 ∧
      msg.steering_angle = -delta0 / deg2rad Real.pi 25 ∧ msg.throttle = a0 ∧
      (-deg2rad Real.pi 25 ≤ delta0 → delta0 ≤ deg2rad Real.pi 25 → -1 ≤ a0 → a0 ≤ 1 →
        -1 ≤ msg.steering_angle ∧ msg.steering_angle ≤ 1 ∧
        -1 ≤ msg.throttle ∧ msg.throttle ≤ 1) :=
  steer_command_mapping (fun _ _ => [0, 0, 0, 0])
    (fun _ _ => { vars := List.replicate 78 0, converged := true })
    { ptsx := [10, 20, 30, 40], ptsy := [0, 0, 0, 0], x := 0, y := 0, psi := 0, speed := 20 }
    _
    (telemetryReply_eq Real.cos Real.sin Real.arctan (fun y x => Complex.arg ⟨x, y⟩) Real.pi
      (fun _ _ => [0, 0, 0, 0]) (fun _ _ => { vars := List.replicate 78 0, converged := true })
      _ _ (telemetryState_scenario _ 0 rfl) (by decide))

/-- Claim C13. Manual-driving signal: for every inbound frame longer than two
characters that begins with `42` and in which `hasData` finds no payload, the
effects of the handler are the one send of the acknowledgment
`42["manual",{}]`; there is no call of the optimizer and no other send,
whatever the fit, the optimizer and the decoder are. -/
theorem onMessage_manual_driving (solve : List (List ℝ) → List ℝ → List ℝ)
    (mpcSolve : List ℝ → List ℝ → SolveOutcome ℝ)
    (decode : List Char → Except Fault (List Char × Telemetry ℝ)) (sdata : List Char)
    (hsize : 2 < sdata.length) (h4 : sdata[0]? = some '4') (h2 : sdata[1]? = some '2')
    (hdata : hasData sdata = []) :
    onMessage Real.cos Real.sin Real.arctan (fun y x => Complex.arg ⟨x, y⟩) Real.pi
        solve mpcSolve decode sdata =
      Except.ok [Effect.send (Frame.text manualMsg)] ∧
    String.mk manualMsg = "42[\"manual\",\x7b\x7d]" :=
  ⟨onMessage_eq_manual _ _ _ _ _ solve mpcSolve decode sdata hsize h4 h2 hdata, rfl⟩

/-- Claim C13 at the frame `42["telemetry",null]` that the simulator sends in
manual mode. -/
theorem onMessage_manual_driving_witness :
    onMessage Real.cos Real.sin Real.arctan (fun y x => Complex.arg ⟨x, y⟩) Real.pi
        (fun _ _ => []) (fun _ _ => { vars := [], converged := true })
        (fun _ => Except.error Fault.outOfBounds) "42[\"telemetry\",null]".toList =
      Except.ok [Effect.send (Frame.text manualMsg)] ∧
    String.mk manualMsg = "42[\"manual\",\x7b\x7d]" :=
  onMessage_manual_driving (fun _ _ => []) (fun _ _ => { vars := [], converged := true })
    (fun _ => Except.error Fault.outOfBounds) "42[\"telemetry\",null]".toList
    (by decide) (by decide) (by decide) (by decide)

/-- Claim C14 as stated fails: for the frame `42["telemetry",{"ptsx":[]}]`,
decoded to a telemetry event without waypoints, the handler does not answer
with the acknowledgment of manual driving; the cycle ends in the failed
assertion of `polyfit`, which aborts the process. -/
theorem onMessage_no_waypoints_aborts :
    onMessage Real.cos Real.sin Real.arctan (fun y x => Complex.arg ⟨x, y⟩) Real.pi
        (fun _ _ => []) (fun _ _ => { vars := List.replicate 78 0, converged := true })
        (fun _ => Except.ok ("telemetry".toList,
          { ptsx := [], ptsy := [], x := 0, y := 0, psi := 0, speed := 0 }))
        "42[\"telemetry\",\x7b\"ptsx\":[]\x7d]".toList =
      Except.error Fault.assertionFailed ∧
    onMessage Real.cos Real.sin Real.arctan (fun y x => Complex.arg ⟨x, y⟩) Real.pi
        (fun _ _ => []) (fun _ _ => { vars := List.replicate 78 0, converged := true })
        (fun _ => Except.ok ("telemetry".toList,
          { ptsx := [], ptsy := [], x := 0, y := 0, psi := 0, speed := 0 }))
        "42[\"telemetry\",\x7b\"ptsx\":[]\x7d]".toList ≠
      Except.ok [Effect.send (Frame.text manualMsg)] := by
  have h := onMessage_eq_telemetryReply Real.cos Real.sin Real.arctan
    (fun y x => Complex.arg ⟨x, y⟩) Real.pi (fun _ _ => [])
    (fun _ _ => { vars := List.replicate 78 0, converged := true })
    (fun _ => Except.ok ("telemetry".toList,
      { ptsx := [], ptsy := [], x := 0, y := 0, psi := 0, speed := 0 }))
    "42[\"telemetry\",\x7b\"ptsx\":[]\x7d]".toList
    { ptsx := [], ptsy := [], x := 0, y := 0, psi := 0, speed := 0 }
    (by decide) (by decide) (by decide) (by decide) rfl
  rw [h, (telemetryReply_no_waypoints Real.cos Real.sin Real.arctan
    (fun y x => Complex.arg ⟨x, y⟩) Real.pi (fun _ _ => [])
    (fun _ _ => { vars := List.replicate 78 0, converged := true })
    { ptsx := [], ptsy := [], x := 0, y := 0, psi := 0, speed := 0 } rfl).2]
  exact ⟨rfl, fun hne => Except.noConfusion hne⟩

/-- Claim C14, amended: for every frame that decodes to a telemetry event
whose `ptsx` has length 0, the control cycle computes no command: it ends in
the failed assertion of `polyfit`, which aborts the process, before the
optimizer is called and without any message being sent. -/
theorem onMessage_no_waypoints (solve : List (List ℝ) → List ℝ → List ℝ)
    (mpcSolve : List ℝ → List ℝ → SolveOutcome ℝ)
    (decode : List Char → Except Fault (List Char × Telemetry ℝ)) (sdata : List Char)
    (t : Telemetry ℝ)
    (hsize : 2 < sdata.length) (h4 : sdata[0]? = some '4') (h2 : sdata[1]? = some '2')
    (hdata : hasData sdata ≠ [])
    (hdecode : decode (hasData sdata) = Except.ok ("telemetry".toList, t))
    (hempty : t.ptsx.length = 0) :
    telemetryState Real.cos Real.sin Real.arctan (fun y x => Complex.arg ⟨x, y⟩) solve t =
      Except.error Fault.assertionFailed ∧
    onMessage Real.cos Real.sin Real.arctan (fun y x => Complex.arg ⟨x, y⟩) Real.pi
        solve mpcSolve decode sdata = Except.error Fault.assertionFailed ∧
    Fault.abortsProcess Fault.assertionFailed = true := by
  have h := telemetryReply_no_waypoints Real.cos Real.sin Real.arctan
    (fun y x => Complex.arg ⟨x, y⟩) Real.pi solve mpcSolve t hempty
  refine ⟨h.1, ?_, rfl⟩
  rw [onMessage_eq_telemetryReply _ _ _ _ _ solve mpcSolve decode sdata t hsize h4 h2 hdata
    hdecode]
  exact h.2

/-- Claim C14, amended, at the frame `42["telemetry",{"ptsx":[],"ptsy":[1]}]`
decoded to a telemetry event with no `x`-values and one `y`-value. -/
theorem onMessage_no_waypoints_witness :
    telemetryState Real.cos Real.sin Real.arctan (fun y x => Complex.arg ⟨x, y⟩)
        (fun _ _ => [0, 0])
        { ptsx := [], ptsy := [1], x := 3, y := 4, psi := 1, speed := 20 } =
      Except.error Fault.assertionFailed ∧
    onMessage Real.cos Real.sin Real.arctan (fun y x => Complex.arg ⟨x, y⟩) Real.pi
        (fun _ _ => [0, 0]) (fun _ _ => { vars := List.replicate 78 0, converged := true })
        (fun _ => Except.ok ("telemetry".toList,
          { ptsx := [], ptsy := [1], x := 3, y := 4, psi := 1, speed := 20 }))
        "42[\"telemetry\",\x7b\"ptsx\":[],\"ptsy\":[1]\x7d]".toList =
      Except.error Fault.assertionFailed ∧
    Fault.abortsProcess Fault.assertionFailed = true :=
  onMessage_no_waypoints (fun _ _ => [0, 0])
    (fun _ _ => { vars := List.replicate 78 0, converged := true })
    (fun _ => Except.ok ("telemetry".toList,
      { ptsx := [], ptsy := [1], x := 3, y := 4, psi := 1, speed := 20 }))
    "42[\"telemetry\",\x7b\"ptsx\":[],\"ptsy\":[1]\x7d]".toList
    { ptsx := [], ptsy := [1], x := 3, y := 4, psi := 1, speed := 20 }
    (by decide) (by decide) (by decide) (by decide) rfl rfl

/-- Claim C15, evaluated at the frame `42}]x[`, where it fails: the text
contains no `null` and contains both `[` and `}]`, the first `[` at position 5
and the last `}]` at position 2, and `hasData` returns the text `[`, which
does not end with `}]`. -/
theorem hasData_bracket_after_brace :
    find "42\x7d]x[".toList "null".toList = none ∧
    find_first_of "42\x7d]x[".toList "[".toList = some 5 ∧
    rfind "42\x7d]x[".toList "\x7d]".toList = some 2 ∧
    hasData "42\x7d]x[".toList = "[".toList := by
  decide

/-- Claim C16. Monotone improvement with degree: for `n >= 3` points and every
order `d` with `2 <= d <= n - 1`, when the QR solve returns least-squares
solutions of the systems that `polyfit` builds for the orders `d` and `d - 1`,
both fits return and the sum, and so the mean, of the squared residuals of the
fit of order `d` is at most that of the fit of order `d - 1`. The `x`-values
need not be distinct for this. -/
theorem polyfit_residual_monotone (solve : List (List ℝ) → List ℝ → List ℝ)
    (xvals yvals : List ℝ) (d : Nat) (hlen : xvals.length = yvals.length)
    (hn : 3 ≤ xvals.length) (hd2 : 2 ≤ d) (hdn : d ≤ xvals.length - 1)
    (hsolve : IsLeastSquares (designMatrix xvals d) yvals (solve (designMatrix xvals d) yvals))
    (hsolve1 : IsLeastSquares (designMatrix xvals (d - 1)) yvals
      (solve (designMatrix xvals (d - 1)) yvals)) :
    ∃ cd cd1 : List ℝ,
      polyfit solve xvals yvals (d : Int) = Except.ok cd ∧
      polyfit solve xvals yvals ((d : Int) - 1) = Except.ok cd1 ∧
      fitResidual xvals yvals cd ≤ fitResidual xvals yvals cd1 ∧
      fitResidual xvals yvals cd / xvals.length ≤ fitResidual xvals yvals cd1 / xvals.length := by
  have hfit := polyfit_eq_ok solve xvals yvals (d : Int) hlen (by omega) (by omega)
  have hfit1 := polyfit_eq_ok solve xvals yvals ((d : Int) - 1) hlen (by omega) (by omega)
  have hto : ((d : Int) - 1).toNat = d - 1 := by omega
  rw [Int.toNat_ofNat] at hfit
  rw [hto] at hfit1
  have hlen1 : (solve (designMatrix xvals (d - 1)) yvals).length = d := by
    rw [hsolve1.1, designMatrix_headD_length xvals (d - 1) (by omega)]
    omega
  have hle := fitResidual_le_of_leastSquares xvals yvals _ _ d (by omega) hlen1 hsolve
  refine ⟨_, _, hfit, hfit1, hle, ?_⟩
  exact div_le_div_of_nonneg_right hle (Nat.cast_nonneg _)

/-- Claim C16 at the collinear points `(0, 0)`, `(1, 1)`, `(2, 2)` with the
orders 2 and 1, which both fit them without residual. -/
theorem polyfit_residual_monotone_witness :
    ∃ cd cd1 : List ℝ,
      polyfit (fun A _ => if (A.headD []).length = 3 then [0, 1, 0] else [0, 1])
        [0, 1, 2] [0, 1, 2] ((2 : Nat) : Int) = Except.ok cd ∧
      polyfit (fun A _ => if (A.headD []).length = 3 then [0, 1, 0] else [0, 1])
        [0, 1, 2] [0, 1, 2] (((2 : Nat) : Int) - 1) = Except.ok cd1 ∧
      fitResidual [0, 1, 2] [0, 1, 2] cd ≤ fitResidual [0, 1, 2] [0, 1, 2] cd1 ∧
      fitResidual [0, 1, 2] [0, 1, 2] cd / ([0, 1, 2] : List ℝ).length ≤
        fitResidual [0, 1, 2] [0, 1, 2] cd1 / ([0, 1, 2] : List ℝ).length :=
  polyfit_residual_monotone (fun A _ => if (A.headD []).length = 3 then [0, 1, 0] else [0, 1])
    [0, 1, 2] [0, 1, 2] 2 rfl (by decide) (by decide) (by decide)
    ⟨by simp [designMatrix], fun c' _ => by
      have h0 : sqResidual (designMatrix ([0, 1, 2] : List ℝ) 2)
          ((fun (A : List (List ℝ)) (_ : List ℝ) =>
            if (A.headD []).length = 3 then ([0, 1, 0] : List ℝ) else [0, 1])
            (designMatrix ([0, 1, 2] : List ℝ) 2) [0, 1, 2]) [0, 1, 2] = 0 := by
        simp [sqResidual, designMatrix, designEntry, Finset.sum_range_succ]
      rw [h0]
      exact sqResidual_nonneg _ _ _⟩
    ⟨by simp [designMatrix], fun c' _ => by
      have h0 : sqResidual (designMatrix ([0, 1, 2] : List ℝ) (2 - 1))
          ((fun (A : List (List ℝ)) (_ : List ℝ) =>
            if (A.headD []).length = 3 then ([0, 1, 0] : List ℝ) else [0, 1])
            (designMatrix ([0, 1, 2] : List ℝ) (2 - 1)) [0, 1, 2]) [0, 1, 2] = 0 := by
        simp [sqResidual, designMatrix, designEntry, Finset.sum_range_succ]
      rw [h0]
      exact sqResidual_nonneg _ _ _⟩

/-- Claim C17 as stated fails: in the straight-ahead scenario of the
specification, with a solve that did not converge and returned the value 7 in
every entry, the control loop sends the steering `-7 / deg2rad(25)` and the
throttle 7 taken from that result. -/
theorem telemetryReply_sends_diverged_result :
    ∃ msg : SteerJson ℝ,
      telemetryReply Real.cos Real.sin Real.arctan (fun y x => Complex.arg ⟨x, y⟩) Real.pi
          (fun _ _ => [0, 0, 0, 0])
          (fun _ _ => { vars := List.replicate 78 7, converged := false })
          { ptsx := [10, 20, 30, 40], ptsy := [0, 0, 0, 0], x := 0, y := 0, psi := 0,
            speed := 20 } =
        Except.ok [Effect.solve [0, 0, 0, 20, -0, 0] [0, 0, 0, 0], Effect.sleep 100,
          Effect.send (Frame.steer msg)] ∧
      msg.steering_angle = -7 / deg2rad Real.pi 25 ∧ msg.throttle = 7 := by
  refine ⟨_, telemetryReply_eq Real.cos Real.sin Real.arctan (fun y x => Complex.arg ⟨x, y⟩)
    Real.pi (fun _ _ => [0, 0, 0, 0])
    (fun _ _ => { vars := List.replicate 78 7, converged := false }) _ _
    (telemetryState_scenario _ 0 rfl) (by decide), ?_, ?_⟩
  · show (List.replicate 78 (7 : ℝ)).getD delta_start 0 / -deg2rad Real.pi 25 =
      -7 / deg2rad Real.pi 25
    have : (List.replicate 78 (7 : ℝ)).getD delta_start 0 = 7 := rfl
    rw [this, div_neg, neg_div]
  · rfl

/-- Claim C17, amended: the control loop has no convergence check and no
fallback command. In every cycle that reaches the optimizer, whatever the
solve returns and whether or not it converged, as long as the returned vector
holds every entry the loop reads, the loop sends the command taken from that
vector, steering `-vars[delta_start] / deg2rad(25)` and throttle
`vars[a_start]`; two solvers that return the same vectors get the same
reply. -/
theorem telemetryReply_ignores_convergence (solve : List (List ℝ) → List ℝ → List ℝ)
    (mpcSolve : List ℝ → List ℝ → SolveOutcome ℝ) (t : Telemetry ℝ) (st : CycleState ℝ)
    (hst : telemetryState Real.cos Real.sin Real.arctan (fun y x => Complex.arg ⟨x, y⟩)
      solve t = Except.ok st)
    (hvars : a_start <
      (mpcSolve [st.px, st.py, st.psi, st.v, st.cte, st.epsi] st.coeffs).vars.length) :
    (∃ msg : SteerJson ℝ,
      telemetryReply Real.cos Real.sin Real.arctan (fun y x => Complex.arg ⟨x, y⟩) Real.pi
          solve mpcSolve t =
        Except.ok [Effect.solve [st.px, st.py, st.psi, st.v, st.cte, st.epsi] st.coeffs,
          Effect.sleep 100, Effect.send (Frame.steer msg)] ∧
      msg.steering_angle =
        -(mpcSolve [st.px, st.py, st.psi, st.v, st.cte, st.epsi] st.coeffs).vars.getD
          delta_start 0 / deg2rad Real.pi 25 ∧
      msg.throttle =
        (mpcSolve [st.px, st.py, st.psi, st.v, st.cte, st.epsi] st.coeffs).vars.getD
          a_start 0) ∧
    ∀ mpcSolve2 : List ℝ → List ℝ → SolveOutcome ℝ,
      (∀ state coeffs, (mpcSolve2 state coeffs).vars = (mpcSolve state coeffs).vars) →
      telemetryReply Real.cos Real.sin Real.arctan (fun y x => Complex.arg ⟨x, y⟩) Real.pi
          solve mpcSolve2 t =
        telemetryReply Real.cos Real.sin Real.arctan (fun y x => Complex.arg ⟨x, y⟩) Real.pi
          solve mpcSolve t := by
  constructor
  · refine ⟨_, telemetryReply_eq _ _ _ _ Real.pi solve mpcSolve t st hst hvars, ?_, rfl⟩
    show _ / -deg2rad Real.pi 25 = _
    rw [div_neg, neg_div]
  · intro mpcSolve2 h2
    unfold telemetryReply
    simp only [h2]

/-- Claim C17, amended, at the straight-ahead scenario of the specification
with a solve that did not converge and returned the value 7 in every entry. -/
theorem telemetryReply_ignores_convergence_witness :
    ∃ msg : SteerJson ℝ,
      telemetryReply Real.cos Real.sin Real.arctan (fun y x => Complex.arg ⟨x, y⟩) Real.pi
          (fun _ _ => [0, 0, 0, 0])
          (fun _ _ => { vars := List.replicate 78 7, converged := false })
          { ptsx := [10, 20, 30, 40], ptsy := [0, 0, 0, 0], x := 0, y := 0, psi := 0,
            speed := 20 } =
        Except.ok [Effect.solve [0, 0, 0, 20, -0, 0] [0, 0, 0, 0], Effect.sleep 100,
          Effect.send (Frame.steer msg)] ∧
      msg.steering_angle = -(List.replicate 78 (7 : ℝ)).getD delta_start 0 /
        deg2rad Real.pi 25 ∧
      msg.throttle = (List.replicate 78 (7 : ℝ)).getD a_start 0 :=
  (telemetryReply_ignores_convergence (fun _ _ => [0, 0, 0, 0])
    (fun _ _ => { vars := List.replicate 78 7, converged := false })
    { ptsx := [10, 20, 30, 40], ptsy := [0, 0, 0, 0], x := 0, y := 0, psi := 0, speed := 20 }
    { ptsx := [10, 20, 30, 40], ptsy := [0, 0, 0, 0], coeffs := [0, 0, 0, 0],
      px := 0, py := 0, psi := 0, v := 20, cte := -0, epsi := 0 }
    (telemetryState_scenario _ 0 rfl) (by decide)).1

/-- Claim C18. The coefficient convention is shared by fit and evaluation: for
every `x`-vector, every order and every row `j`, the row of the matrix `A`
that `polyfit` builds has `order + 1` entries, entry `i` is `xvals[j] ^ i`
(entry 0 is 1, also when `xvals[j] = 0`), and for every coefficient vector `c`
of length `order + 1` entry `j` of `A * c` is `polyeval(c, xvals[j])`. -/
theorem designMatrix_convention (xvals : List ℝ) (order j : Nat) (x : ℝ)
    (hx : xvals[j]? = some x) :
    ∃ row : List ℝ, (designMatrix xvals order)[j]? = some row ∧
      row.length = order + 1 ∧ row[0]? = some 1 ∧
      (∀ i, i ≤ order → row[i]? = some (x ^ i)) ∧
      ∀ c : List ℝ, c.length = order + 1 →
        (∑ i in Finset.range (order + 1), row.getD i 0 * c.getD i 0) = polyeval c x := by
  have hj : j < xvals.length := lt_length_of_getElem? hx
  have hxj : xvals.getD j 0 = x := getD_of_getElem? hx
  have hentry : ∀ i, i ≤ order →
      ((List.range (order + 1)).map (designEntry x))[i]? = some (x ^ i) := by
    intro i hi
    rw [List.getElem?_map, List.getElem?_range (by omega), Option.map_some',
      designEntry_eq_pow]
  refine ⟨(List.range (order + 1)).map (designEntry x), ?_, by simp, ?_, hentry, ?_⟩
  · simp [designMatrix, List.getElem?_map, hx]
  · simpa using hentry 0 (Nat.zero_le _)
  · intro c hc
    have h := designMatrix_row_mul xvals c order j hj hc
    rw [hxj, hc] at h
    rw [← h]
    apply Finset.sum_congr rfl
    intro i _
    congr 2
    simp [designMatrix, List.getD_eq_getElem?_getD, List.getElem?_map, hx]

/-- Claim C18 at the abscissae `[0, 2]`, row 0 (the abscissa 0) and order 2. -/
theorem designMatrix_convention_witness :
    ∃ row : List ℝ, (designMatrix ([0, 2] : List ℝ) 2)[0]? = some row ∧
      row.length = 2 + 1 ∧ row[0]? = some 1 ∧
      (∀ i, i ≤ 2 → row[i]? = some ((0 : ℝ) ^ i)) ∧
      ∀ c : List ℝ, c.length = 2 + 1 →
        (∑ i in Finset.range (2 + 1), row.getD i 0 * c.getD i 0) = polyeval c 0 :=
  designMatrix_convention [0, 2] 2 0 0 rfl

/-- Claim C19. At `x = 0`, the only point at which the control loop evaluates
it, `evalPolynomialGradient` returns `coeffs[1]` for every coefficient vector
with at least two entries and 0 for a shorter one, and this is the derivative
at 0 of the polynomial that `polyeval` evaluates; in every cycle that reaches
the optimizer the heading error is computed from the candidate heading
`atan(coeffs[1])`. -/
theorem evalPolynomialGradient_at_zero :
    (∀ coeffs : List ℝ,
      (∀ c1, coeffs[1]? = some c1 → evalPolynomialGradient coeffs 0 = c1) ∧
      (coeffs.length < 2 → evalPolynomialGradient coeffs 0 = 0) ∧
      deriv (fun x => polyeval coeffs x) 0 = evalPolynomialGradient coeffs 0) ∧
    ∀ (solve : List (List ℝ) → List ℝ → List ℝ) (t : Telemetry ℝ) (st : CycleState ℝ),
      telemetryState Real.cos Real.sin Real.arctan (fun y x => Complex.arg ⟨x, y⟩) solve t =
        Except.ok st →
      ∃ x0 x1 y0 y1 : ℝ,
        st.ptsx[0]? = some x0 ∧ st.ptsx[1]? = some x1 ∧
        st.ptsy[0]? = some y0 ∧ st.ptsy[1]? = some y1 ∧
        st.epsi = unwrapAngle Real.cos Real.sin (fun y x => Complex.arg ⟨x, y⟩)
          (0 - disambiguateHeading Real.cos Real.sin (fun y x => Complex.arg ⟨x, y⟩)
            (Real.arctan (st.coeffs.getD 1 0)) (x1 - x0) (y1 - y0)) := by
  constructor
  · intro coeffs
    refine ⟨?_, ?_, ?_⟩
    · intro c1 h1
      rw [evalPolynomialGradient_zero, getD_of_getElem? h1]
    · intro hlt
      rw [evalPolynomialGradient_zero, List.getD_eq_getElem?_getD,
        List.getElem?_eq_none (by omega)]
      rfl
    · rw [evalPolynomialGradient_zero, deriv_polyeval_zero]
  · intro solve t st h
    obtain ⟨x0, x1, y0, y1, h0, h1, h2, h3, he⟩ := telemetryState_ok_heading _ _ _ _ _ _ _ h
    rw [evalPolynomialGradient_zero] at he
    exact ⟨x0, x1, y0, y1, h0, h1, h2, h3, he⟩

/-- Claim C19 at the offset-path scenario of the specification, whose
coefficients are `[5, 0, 0, 0]`: the candidate heading is `atan(0)`. -/
theorem evalPolynomialGradient_at_zero_witness :
    ∃ x0 x1 y0 y1 : ℝ,
      ([10, 20, 30, 40] : List ℝ)[0]? = some x0 ∧ ([10, 20, 30, 40] : List ℝ)[1]? = some x1 ∧
      ([5, 5, 5, 5] : List ℝ)[0]? = some y0 ∧ ([5, 5, 5, 5] : List ℝ)[1]? = some y1 ∧
      (0 : ℝ) = unwrapAngle Real.cos Real.sin (fun y x => Complex.arg ⟨x, y⟩)
        (0 - disambiguateHeading Real.cos Real.sin (fun y x => Complex.arg ⟨x, y⟩)
          (Real.arctan (([5, 0, 0, 0] : List ℝ).getD 1 0)) (x1 - x0) (y1 - y0)) :=
  evalPolynomialGradient_at_zero.2 (fun _ _ => [5, 0, 0, 0])
    { ptsx := [10, 20, 30, 40], ptsy := [5, 5, 5, 5], x := 0, y := 0, psi := 0, speed := 20 }
    { ptsx := [10, 20, 30, 40], ptsy := [5, 5, 5, 5], coeffs := [5, 0, 0, 0],
      px := 0, py := 0, psi := 0, v := 20, cte := -5, epsi := 0 }
    (telemetryState_scenario _ 5 rfl)

/-- Claim C20. Index safety of the heading disambiguation: in every control
cycle in which the frame transform returns and the call of `polyfit` passes
its assertions, with a solver that returns one coefficient for each column of
the matrix, the waypoint lists `ptsx` and `ptsy` have at least two elements
each, the coefficient vector has at least two entries, the four reads
`ptsx[0]`, `ptsx[1]`, `ptsy[0]`, `ptsy[1]` are in bounds and the cycle reaches
the optimizer. -/
theorem telemetryState_index_safe (solve : List (List ℝ) → List ℝ → List ℝ)
    (hdim : ∀ A y, (solve A y).length = (A.headD []).length)
    (t : Telemetry ℝ) (ptsx ptsy coeffs : List ℝ)
    (hm : mapToCarFrame Real.cos Real.sin
      [t.x, t.y, unwrapAngle Real.cos Real.sin (fun y x => Complex.arg ⟨x, y⟩) t.psi]
      t.ptsx t.ptsy = Except.ok (ptsx, ptsy))
    (hf : polyfit solve ptsx ptsy (polyfitOrder t.ptsx.length) = Except.ok coeffs) :
    2 ≤ ptsx.length ∧ 2 ≤ ptsy.length ∧ 2 ≤ coeffs.length ∧
    (∃ x0 x1 y0 y1 : ℝ, index ptsx 0 = Except.ok x0 ∧ index ptsx 1 = Except.ok x1 ∧
      index ptsy 0 = Except.ok y0 ∧ index ptsy 1 = Except.ok y1) ∧
    ∃ st : CycleState ℝ,
      telemetryState Real.cos Real.sin Real.arctan (fun y x => Complex.arg ⟨x, y⟩) solve t =
        Except.ok st ∧
      st.ptsx = ptsx ∧ st.ptsy = ptsy ∧ st.coeffs = coeffs := by
  obtain ⟨hl, h1, h2, hc⟩ := polyfit_ok_inv _ _ _ _ _ hf
  have hx : 2 ≤ ptsx.length := by omega
  have hy : 2 ≤ ptsy.length := by omega
  have hcl : 2 ≤ coeffs.length := by
    rw [hc, hdim, designMatrix_headD_length _ _ (by omega)]
    omega
  refine ⟨hx, hy, hcl, ⟨_, _, _, _, index_eq_ok_getD (by omega), index_eq_ok_getD (by omega),
    index_eq_ok_getD (by omega), index_eq_ok_getD (by omega)⟩, _,
    telemetryState_of_polyfit _ _ _ _ solve t ptsx ptsy coeffs hm hf, rfl, rfl, rfl⟩

/-- Claim C20 at the straight-ahead scenario of the specification with the
solver that returns the zero vector. -/
theorem telemetryState_index_safe_witness :
    2 ≤ ([10, 20, 30, 40] : List ℝ).length ∧ 2 ≤ ([0, 0, 0, 0] : List ℝ).length ∧
    2 ≤ ([0, 0, 0, 0] : List ℝ).length ∧
    (∃ x0 x1 y0 y1 : ℝ, index ([10, 20, 30, 40] : List ℝ) 0 = Except.ok x0 ∧
      index ([10, 20, 30, 40] : List ℝ) 1 = Except.ok x1 ∧
      index ([0, 0, 0, 0] : List ℝ) 0 = Except.ok y0 ∧
      index ([0, 0, 0, 0] : List ℝ) 1 = Except.ok y1) ∧
    ∃ st : CycleState ℝ,
      telemetryState Real.cos Real.sin Real.arctan (fun y x => Complex.arg ⟨x, y⟩)
        (fun A _ => List.replicate (A.headD []).length 0)
        { ptsx := [10, 20, 30, 40], ptsy := [0, 0, 0, 0], x := 0, y := 0, psi := 0,
          speed := 20 } = Except.ok st ∧
      st.ptsx = [10, 20, 30, 40] ∧ st.ptsy = [0, 0, 0, 0] ∧ st.coeffs = [0, 0, 0, 0] :=
  telemetryState_index_safe (fun A _ => List.replicate (A.headD []).length 0)
    (fun _ _ => List.length_replicate _ _)
    { ptsx := [10, 20, 30, 40], ptsy := [0, 0, 0, 0], x := 0, y := 0, psi := 0, speed := 20 }
    [10, 20, 30, 40] [0, 0, 0, 0] [0, 0, 0, 0]
    (by
      rw [mapToCarFrame_eq Real.cos Real.sin 0 0 _ [10, 20, 30, 40] [0, 0, 0, 0] rfl,
        unwrapAngle_zero, zipWith_car_frame_x [10, 20, 30, 40] [0, 0, 0, 0] rfl,
        zipWith_car_frame_y [10, 20, 30, 40] [0, 0, 0, 0] rfl])
    (by
      have h3 : polyfitOrder 4 = 3 := by decide
      show polyfit _ [10, 20, 30, 40] [0, 0, 0, 0] (polyfitOrder 4) = _
      rw [h3, polyfit_eq_ok _ [10, 20, 30, 40] [0, 0, 0, 0] 3 rfl (by decide) (by decide)]
      simp [designMatrix])

end MPC
